import Mathlib

/-!
# Results.cpp — result-consumption state machine of the MariaDB C++ connector

A shallow embedding of `src/src/Results.cpp` (class `sql::mariadb::Results`).

* The fields of `Results` become the record `Results`.
* Member functions become pure functions on that record.  A function that can
  leave through an exception returns the state it leaves behind together with a
  `Completion`.
* The collaborators that are only used through their interface (`Protocol`,
  `SelectResultSet`, the `CmdInformation*` classes) are parameters: `Env` for the
  connection side, `CmdOps` for the command-information classes.  Every call
  made on a collaborator is appended to `Results.trace`.
* The two unchecked pointers are modelled.  `cmdInformation->` on a null pointer
  ends `getMoreResults` with `Completion.nullCmdInformation`.
  `statement->getProtocol()->` on a null `statement` (after `close()`) or a null
  protocol ends an ingestion function at that line: it returns the state it was
  given, marked `crashed`.  A state with that mark stands for a program that has
  stopped there.  The callers of the ingestion functions (`feedAll`, the `Protocol`
  calls of `loadFully` and `getMoreResults`) do not consult the mark: what they
  compute from a marked state on describes no run of the program.  The mark is
  never cleared.
-/

namespace MariaDb

/-! ## Constants of `Statement` -/

/-- Modelled from the spec: `Statement::CLOSE_CURRENT_RESULT` is declared in a header
that is not among the sources; the JDBC value is used. -/
def CLOSE_CURRENT_RESULT : Int := 1

/-- Modelled from the spec: `Statement::EXECUTE_FAILED`, the update count that marks an
error entry; declared in a header that is not among the sources (JDBC value). -/
def EXECUTE_FAILED : Int := -3

/-- Modelled from the spec: `Statement::RETURN_GENERATED_KEYS`, declared in a header that
is not among the sources (JDBC value). -/
def RETURN_GENERATED_KEYS : Int := 1

/-- Update count that marks "this sub-result is a result set" (`-1` in `addResultSet`
and in `getMoreResults`). -/
def RESULT_SET_VALUE : Int := -1

/-! ## Collaborators -/

/-- Modelled from the spec: a RowSet (`SelectResultSet`).  The class is not among the
sources; a RowSet is a handle with an identity and the answer of `isCallableResult()`.
What `close`, `abort`, `fetchRemaining` and `isFullyLoaded` do is given by `Env`. -/
structure SelectResultSet where
  id : Nat
  callableResult : Bool
deriving DecidableEq, Repr

/-- The dynamic type of the object behind `cmdInformation`. -/
inductive Variant
  | Single
  | Batch
  | Multiple
deriving DecidableEq, Repr

/-- One server response handed to the `Results` object: the three entry points
`addStats`, `addStatsError`, `addResultSet` with their arguments. -/
inductive Event
  | stats (updateCount insertId : Int) (moreResultAvailable : Bool)
  | statsError (moreResultAvailable : Bool)
  | resultSet (rs : SelectResultSet) (moreResultAvailable : Bool)
deriving DecidableEq, Repr

/-- A call made by `Results` on one of its collaborators. -/
inductive Call
  | lock
  | unlock
  | hasMoreResults
  | moveToNextResult
  | getResult
  | removeActiveStreamingResult
  | rsClose (rs : SelectResultSet)
  | rsFetchRemaining (rs : SelectResultSet)
  | rsAbort (rs : SelectResultSet)
  | addSuccessStat (updateCount insertId : Int)
  | addErrorStat
  | addResultSetStat
  | setRewrite (rewritten : Bool)
deriving DecidableEq, Repr

/-- What a `Protocol` call does besides changing the connection: the events it feeds
back into the `Results` object it was given (`this`), and whether it then raises. -/
structure Reply (σ : Type) where
  next : σ
  events : List Event
  raises : Bool

/-- Modelled from the spec: the connection side (`Protocol` and the RowSet operations),
none of which is among the sources.  `σ` is the state of the connection. -/
structure Env (σ : Type) where
  hasMoreResults : σ → Bool
  moveToNextResult : σ → Reply σ
  getResult : σ → Reply σ
  removeActiveStreamingResult : σ → σ
  rsClose : σ → SelectResultSet → σ × Bool
  rsFetchRemaining : σ → SelectResultSet → σ × Bool
  rsAbort : σ → SelectResultSet → σ × Bool
  rsIsFullyLoaded : σ → SelectResultSet → Bool

/-- Modelled from the spec: the interface of the `CmdInformation` classes
(`CmdInformationSingle`, `CmdInformationBatch`, `CmdInformationMultiple`), which are not
among the sources.  `κ` is the private state of such an object; every method is
dispatched on the dynamic type (`Variant`). -/
structure CmdOps (κ : Type) where
  newBatch : Nat → Int → κ
  newMultiple : Nat → Int → κ
  newSingle : Int → Int → Int → κ
  addSuccessStat : Variant → κ → Int → Int → κ
  addErrorStat : Variant → κ → κ
  addResultSetStat : Variant → κ → κ
  isCurrentUpdateCount : Variant → κ → Bool
  moreResults : Variant → κ → Bool × κ
  getUpdateCount : Variant → κ → Int
  getCurrentStatNumber : Variant → κ → Int
  setRewrite : Variant → κ → Bool → κ
  getBatchGeneratedKeys : Variant → κ → SelectResultSet
  getGeneratedKeys : Variant → κ → String → SelectResultSet

/-- The object behind `cmdInformation`: its dynamic type and its private state. -/
structure CmdInformation (κ : Type) where
  variant : Variant
  st : κ

/-- The owning statement (`MariaDbStatement*`), of which only `getProtocol()` is used. -/
structure MariaDbStatement where
  hasProtocol : Bool
deriving DecidableEq, Repr

/-! ## The state -/

/-- The fields of `Results` that the member functions read or write, followed by the
state of the connection (`protocol`), the log of collaborator calls (`trace`), and the
mark `crashed`, set when an ingestion function dereferenced a null `statement` or a null
protocol. -/
structure Results (σ κ : Type) where
  statement : Option MariaDbStatement
  fetchSize : Int
  batch : Bool
  expectedSize : Nat
  binaryFormat : Bool
  autoGeneratedKeys : Int
  autoIncrement : Int
  sql : String
  haveResultInWire : Bool
  resultSet : Option SelectResultSet
  executionResults : List SelectResultSet
  callableResultSet : Option SelectResultSet
  cmdInformation : Option (CmdInformation κ)
  rewritten : Bool
  protocol : σ
  trace : List Call
  crashed : Bool

/-- How a member function leaves. -/
inductive Completion (α : Type)
  | returned (v : α)
  | raised
  | nullCmdInformation
  | outOfFuel
deriving DecidableEq, Repr

section Embedding

variable {σ κ : Type}

/-- Append a call to the log. -/
def Results.log (s : Results σ κ) (c : Call) : Results σ κ :=
  { s with trace := s.trace ++ [c] }

/-- The call `removeActiveStreamingResult()` on a protocol pointer that is not null:
the `protocol` argument of `getMoreResults` (line 381), or `statement->getProtocol()`
once `Results.wireBookkeeping` has found both pointers non-null. -/
def Results.removeActiveStreamingResult (E : Env σ) (s : Results σ κ) : Results σ κ :=
  { s with protocol := E.removeActiveStreamingResult s.protocol,
           trace := s.trace ++ [Call.removeActiveStreamingResult] }

/-- Whether `statement->getProtocol()` yields a protocol: `statement` is not NULL
(it is after `close()`) and its protocol is not null. -/
def Results.protocolAttached (s : Results σ κ) : Bool :=
  match s.statement with
  | some st => st.hasProtocol
  | none => false

/-- The first statements of `addStats`, `addStatsError` and `addResultSet`
(lines 112-115, 136-139, 165-168): release the streaming reservation when the last
sub-result has arrived and nothing streams, then set `haveResultInWire`.  The release
goes through `statement->getProtocol()` without a check: the result is `none` when it is
due and `statement` or its protocol is null (a null pointer is dereferenced). -/
def Results.wireBookkeeping (E : Env σ) (s : Results σ κ) (moreResultAvailable : Bool) :
    Option (Results σ κ) :=
  if s.haveResultInWire && !moreResultAvailable && s.fetchSize == 0 then
    if s.protocolAttached then
      some { s.removeActiveStreamingResult E with haveResultInWire := moreResultAvailable }
    else none
  else some { s with haveResultInWire := moreResultAvailable }

/-- The condition of lines 112, 136 and 165: the release of the streaming reservation
is due. -/
def Results.releaseDue (s : Results σ κ) (moreResultAvailable : Bool) : Bool :=
  s.haveResultInWire && !moreResultAvailable && s.fetchSize == 0

/-- An ingestion call with this flag dereferences a null pointer: the release is due and
`statement->getProtocol()` yields no protocol. -/
def Results.nullDereference (s : Results σ κ) (moreResultAvailable : Bool) : Bool :=
  s.releaseDue moreResultAvailable && !s.protocolAttached

/-- The state after the first statements of an ingestion function when they complete:
what `Results.wireBookkeeping` yields when it yields a state. -/
def Results.bookkept (E : Env σ) (s : Results σ κ) (moreResultAvailable : Bool) :
    Results σ κ :=
  let s1 := if s.haveResultInWire && !moreResultAvailable && s.fetchSize == 0
            then s.removeActiveStreamingResult E else s
  { s1 with haveResultInWire := moreResultAvailable }

/-- The call `cmdInformation->addSuccessStat(updateCount, insertId)` on outcome `c`. -/
def Results.callAddSuccessStat (C : CmdOps κ) (s : Results σ κ) (c : CmdInformation κ)
    (updateCount insertId : Int) : Results σ κ :=
  { s with cmdInformation := some ⟨c.variant, C.addSuccessStat c.variant c.st updateCount insertId⟩,
           trace := s.trace ++ [Call.addSuccessStat updateCount insertId] }

/-- The call `cmdInformation->addErrorStat()` on outcome `c`. -/
def Results.callAddErrorStat (C : CmdOps κ) (s : Results σ κ) (c : CmdInformation κ) :
    Results σ κ :=
  { s with cmdInformation := some ⟨c.variant, C.addErrorStat c.variant c.st⟩,
           trace := s.trace ++ [Call.addErrorStat] }

/-- The call `cmdInformation->addResultSetStat()` on outcome `c`. -/
def Results.callAddResultSetStat (C : CmdOps κ) (s : Results σ κ) (c : CmdInformation κ) :
    Results σ κ :=
  { s with cmdInformation := some ⟨c.variant, C.addResultSetStat c.variant c.st⟩,
           trace := s.trace ++ [Call.addResultSetStat] }

/-- Embedding of `Results::addStats` (lines 110-127).  When line 113 dereferences a null
pointer the function ends there: the state is returned marked `crashed`. -/
def addStats (E : Env σ) (C : CmdOps κ) (s : Results σ κ)
    (updateCount insertId : Int) (moreResultAvailable : Bool) : Results σ κ :=
  match s.wireBookkeeping E moreResultAvailable with
  | none => { s with crashed := true }
  | some s2 =>
    match s2.cmdInformation with
    | some c => s2.callAddSuccessStat C c updateCount insertId
    | none =>
      if s2.batch then
        s2.callAddSuccessStat C ⟨Variant.Batch, C.newBatch s2.expectedSize s2.autoIncrement⟩
          updateCount insertId
      else if moreResultAvailable then
        s2.callAddSuccessStat C ⟨Variant.Multiple, C.newMultiple s2.expectedSize s2.autoIncrement⟩
          updateCount insertId
      else
        { s2 with cmdInformation := some (CmdInformation.mk Variant.Single (C.newSingle insertId updateCount s2.autoIncrement)) }

/-- Embedding of `Results::addStatsError` (lines 134-151).  When line 137 dereferences a
null pointer the function ends there: the state is returned marked `crashed`. -/
def addStatsError (E : Env σ) (C : CmdOps κ) (s : Results σ κ)
    (moreResultAvailable : Bool) : Results σ κ :=
  match s.wireBookkeeping E moreResultAvailable with
  | none => { s with crashed := true }
  | some s2 =>
    match s2.cmdInformation with
    | some c => s2.callAddErrorStat C c
    | none =>
      if s2.batch then
        s2.callAddErrorStat C ⟨Variant.Batch, C.newBatch s2.expectedSize s2.autoIncrement⟩
      else if moreResultAvailable then
        s2.callAddErrorStat C ⟨Variant.Multiple, C.newMultiple s2.expectedSize s2.autoIncrement⟩
      else
        { s2 with cmdInformation := some (CmdInformation.mk Variant.Single (C.newSingle 0 EXECUTE_FAILED s2.autoIncrement)) }

/-- Embedding of `Results::getCurrentStatNumber` (lines 153-155). -/
def getCurrentStatNumber (C : CmdOps κ) (s : Results σ κ) : Int :=
  match s.cmdInformation with
  | none => 0
  | some c => C.getCurrentStatNumber c.variant c.st

/-- Embedding of `Results::addResultSet` (lines 163-191).  When line 166 dereferences a
null pointer the function ends there: the state is returned marked `crashed`. -/
def addResultSet (E : Env σ) (C : CmdOps κ) (s : Results σ κ)
    (resultSet : SelectResultSet) (moreResultAvailable : Bool) : Results σ κ :=
  match s.wireBookkeeping E moreResultAvailable with
  | none => { s with crashed := true }
  | some s2 =>
    if resultSet.callableResult then
      { s2 with callableResultSet := some resultSet }
    else
      let s3 := { s2 with executionResults := s2.executionResults ++ [resultSet] }
      match s3.cmdInformation with
      | some c => s3.callAddResultSetStat C c
      | none =>
        if s3.batch then
          s3.callAddResultSetStat C ⟨Variant.Batch, C.newBatch s3.expectedSize s3.autoIncrement⟩
        else if moreResultAvailable then
          s3.callAddResultSetStat C
            ⟨Variant.Multiple, C.newMultiple s3.expectedSize s3.autoIncrement⟩
        else
          { s3 with cmdInformation := some (CmdInformation.mk Variant.Single (C.newSingle 0 RESULT_SET_VALUE s3.autoIncrement)) }

/-- Embedding of `Results::getCmdInformation` (lines 193-195). -/
def getCmdInformation (s : Results σ κ) : Option (CmdInformation κ) :=
  s.cmdInformation

/-- Embedding of `Results::setCmdInformation` (lines 197-199); `none` is the null pointer. -/
def setCmdInformation (s : Results σ κ) (cmdInformation : Option (CmdInformation κ)) :
    Results σ κ :=
  { s with cmdInformation := cmdInformation }

/-- Embedding of `Results::commandEnd` (lines 206-223). -/
def commandEnd (C : CmdOps κ) (s : Results σ κ) : Results σ κ × Bool :=
  match s.cmdInformation with
  | some c =>
    let s1 : Results σ κ :=
      match s.executionResults with
      | rs :: rest =>
        if !C.isCurrentUpdateCount c.variant c.st then
          { s with resultSet := some rs, executionResults := rest }
        else
          { s with resultSet := none }
      | [] => { s with resultSet := none }
    ({ s1 with cmdInformation := some ⟨c.variant, C.setRewrite c.variant c.st s1.rewritten⟩,
               trace := s1.trace ++ [Call.setRewrite s1.rewritten] }, true)
  | none => ({ s with resultSet := none }, false)

/-- Embedding of `Results::getResultSet` (lines 226-228). -/
def getResultSet (s : Results σ κ) : Option SelectResultSet :=
  s.resultSet

/-- Embedding of `Results::releaseResultSet` (lines 231-233). -/
def releaseResultSet (s : Results σ κ) : Results σ κ × Option SelectResultSet :=
  ({ s with resultSet := none }, s.resultSet)

/-- Embedding of `Results::getCallableResultSet` (lines 236-238). -/
def getCallableResultSet (s : Results σ κ) : Option SelectResultSet :=
  s.callableResultSet

/-- Replay one event that a `Protocol` call feeds into `this`. -/
def feed (E : Env σ) (C : CmdOps κ) (s : Results σ κ) : Event → Results σ κ
  | Event.stats u i more => addStats E C s u i more
  | Event.statsError more => addStatsError E C s more
  | Event.resultSet rs more => addResultSet E C s rs more

/-- Replay a sequence of events in order. -/
def feedAll (E : Env σ) (C : CmdOps κ) (s : Results σ κ) (evs : List Event) : Results σ κ :=
  evs.foldl (feed E C) s

/-- A call `protocol->moveToNextResult(this, …)` or `protocol->getResult(this, …)`:
logged, the connection moves on, the events are fed into `this`; the flag says whether
the call then raised. -/
def Results.protocolCall (E : Env σ) (C : CmdOps κ) (s : Results σ κ) (c : Call)
    (r : Reply σ) : Results σ κ × Bool :=
  (feedAll E C { s with protocol := r.next, trace := s.trace ++ [c] } r.events, r.raises)

/-- A call `rs->close()`; the flag says whether it raised. -/
def Results.callClose (E : Env σ) (s : Results σ κ) (rs : SelectResultSet) :
    Results σ κ × Bool :=
  ({ s with protocol := (E.rsClose s.protocol rs).1, trace := s.trace ++ [Call.rsClose rs] },
   (E.rsClose s.protocol rs).2)

/-- A call `rs->fetchRemaining()`; the flag says whether it raised. -/
def Results.callFetchRemaining (E : Env σ) (s : Results σ κ) (rs : SelectResultSet) :
    Results σ κ × Bool :=
  ({ s with protocol := (E.rsFetchRemaining s.protocol rs).1,
            trace := s.trace ++ [Call.rsFetchRemaining rs] },
   (E.rsFetchRemaining s.protocol rs).2)

/-- A call `rs->abort()`; the flag says whether it raised. -/
def Results.callAbort (E : Env σ) (s : Results σ κ) (rs : SelectResultSet) :
    Results σ κ × Bool :=
  ({ s with protocol := (E.rsAbort s.protocol rs).1, trace := s.trace ++ [Call.rsAbort rs] },
   (E.rsAbort s.protocol rs).2)

/-- The `while (protocol->hasMoreResults())` loop of `loadFully` (lines 279-285),
with the assignment `haveResultInWire= false` that follows it.  `fuel` bounds the number
of times the loop condition is evaluated. -/
def loadFullyLoop (E : Env σ) (C : CmdOps κ) (skip : Bool) :
    Nat → Results σ κ → Results σ κ × Completion Unit
  | 0, s => (s, Completion.outOfFuel)
  | fuel + 1, s =>
    let s1 := s.log Call.hasMoreResults
    if E.hasMoreResults s1.protocol then
      let m := s1.protocolCall E C Call.moveToNextResult (E.moveToNextResult s1.protocol)
      if m.2 then (m.1, Completion.raised)
      else if !skip then
        let g := m.1.protocolCall E C Call.getResult (E.getResult m.1.protocol)
        if g.2 then (g.1, Completion.raised)
        else loadFullyLoop E C skip fuel g.1
      else loadFullyLoop E C skip fuel m.1
    else ({ s1 with haveResultInWire := false }, Completion.returned ())

/-- The first half of `loadFully` (lines 251-277): when streaming, `fetchSize` is
cleared and the current RowSet, or else the first queued one, is closed or fetched. -/
def loadFullyCurrent (E : Env σ) (s : Results σ κ) (skip : Bool) : Results σ κ × Bool :=
  if s.fetchSize != 0 then
    let s1 := { s with fetchSize := 0 }
    match s1.resultSet with
    | some rs => if skip then s1.callClose E rs else s1.callFetchRemaining E rs
    | none =>
      match s1.executionResults with
      | rs :: _ => if skip then s1.callClose E rs else s1.callFetchRemaining E rs
      | [] => (s1, false)
  else (s, false)

/-- Embedding of `Results::loadFully` (lines 249-287). -/
def loadFully (E : Env σ) (C : CmdOps κ) (fuel : Nat) (s : Results σ κ) (skip : Bool) :
    Results σ κ × Completion Unit :=
  let r := loadFullyCurrent E s skip
  if r.2 then (r.1, Completion.raised)
  else if r.1.haveResultInWire then loadFullyLoop E C skip fuel r.1
  else (r.1, Completion.returned ())

/-- Embedding of `Results::abort` (lines 295-312). -/
def abort (E : Env σ) (s : Results σ κ) : Results σ κ × Completion Unit :=
  if s.fetchSize != 0 then
    let s1 := { s with fetchSize := 0 }
    let r : Results σ κ × Bool :=
      match s1.resultSet with
      | some rs => s1.callAbort E rs
      | none =>
        match s1.executionResults with
        | rs :: _ => s1.callAbort E rs
        | [] => (s1, false)
    if r.2 then (r.1, Completion.raised) else (r.1, Completion.returned ())
  else (s, Completion.returned ())

/-- Embedding of `Results::isFullyLoaded` (lines 320-325). -/
def isFullyLoaded (E : Env σ) (s : Results σ κ) : Bool :=
  if s.fetchSize == 0 then true
  else
    match s.resultSet with
    | none => true
    | some rs =>
      E.rsIsFullyLoaded s.protocol rs && s.executionResults.isEmpty
        && !E.hasMoreResults s.protocol

/-- The statement
`if (current == Statement::CLOSE_CURRENT_RESULT && resultSet) resultSet->close();`
(lines 364-366 and 374-376); the flag says whether the close raised. -/
def Results.closeCurrentIfAsked (E : Env σ) (s : Results σ κ) (current : Int) :
    Results σ κ × Bool :=
  match s.resultSet with
  | some rs => if current == CLOSE_CURRENT_RESULT then s.callClose E rs else (s, false)
  | none => (s, false)

/-- The tail of `getMoreResults` (lines 362-384), entered with the lock held. -/
def getMoreResultsTail (E : Env σ) (C : CmdOps κ) (s : Results σ κ) (current : Int) :
    Results σ κ × Completion Bool :=
  match s.cmdInformation with
  | none => (s, Completion.nullCmdInformation)
  | some c =>
    let more := (C.moreResults c.variant c.st).1
    let c1 : CmdInformation κ := ⟨c.variant, (C.moreResults c.variant c.st).2⟩
    let s1 := { s with cmdInformation := some c1 }
    if more && !s1.batch then
      let k := s1.closeCurrentIfAsked E current
      if k.2 then (k.1.log Call.unlock, Completion.raised)
      else
        let s2 : Results σ κ :=
          match k.1.executionResults with
          | rs :: rest => { k.1 with resultSet := some rs, executionResults := rest }
          | [] => k.1
        (s2.log Call.unlock, Completion.returned s2.resultSet.isSome)
    else
      let k := s1.closeCurrentIfAsked E current
      if k.2 then (k.1.log Call.unlock, Completion.raised)
      else
        let s2 := { k.1 with resultSet := none }
        let s3 :=
          if C.getUpdateCount c1.variant c1.st == -1 && s2.haveResultInWire then
            Results.removeActiveStreamingResult E { s2 with haveResultInWire := false }
          else s2
        (s3.log Call.unlock, Completion.returned false)

/-- The streaming step of `getMoreResults` (lines 341-355): when streaming with a
current RowSet, it is closed or fetched; the flag says whether that raised (the
exception is re-raised through the exception factory). -/
def getMoreResultsCurrent (E : Env σ) (s : Results σ κ) (current : Int) :
    Results σ κ × Bool :=
  if s.fetchSize != 0 then
    match s.resultSet with
    | some rs =>
      if current == CLOSE_CURRENT_RESULT then s.callClose E rs
      else s.callFetchRemaining E rs
    | none => (s, false)
  else (s, false)

/-- The wire step of `getMoreResults` (lines 357-360); the flag says whether a
`Protocol` call raised. -/
def getMoreResultsWire (E : Env σ) (C : CmdOps κ) (s : Results σ κ) : Results σ κ × Bool :=
  if s.haveResultInWire then
    let m := s.protocolCall E C Call.moveToNextResult (E.moveToNextResult s.protocol)
    if m.2 then m
    else m.1.protocolCall E C Call.getResult (E.getResult m.1.protocol)
  else (s, false)

/-- Embedding of `Results::getMoreResults` (lines 338-385).  The `lock_guard` is logged as `lock` on
entry and `unlock` on every exit that unwinds the scope. -/
def getMoreResults (E : Env σ) (C : CmdOps κ) (s : Results σ κ) (current : Int) :
    Results σ κ × Completion Bool :=
  let a := getMoreResultsCurrent E (s.log Call.lock) current
  if a.2 then (a.1.log Call.unlock, Completion.raised)
  else
    let w := getMoreResultsWire E C a.1
    if w.2 then (w.1.log Call.unlock, Completion.raised)
    else getMoreResultsTail E C w.1 current

/-- Embedding of `Results::removeFetchSize` (lines 407-409). -/
def removeFetchSize (s : Results σ κ) : Results σ κ :=
  { s with fetchSize := 0 }

/-- Embedding of `Results::close` (lines 454-457). -/
def close (s : Results σ κ) : Results σ κ :=
  { s with statement := none, fetchSize := 0 }

/-- Embedding of `Results::setRewritten` (lines 479-481). -/
def setRewritten (s : Results σ κ) (rewritten : Bool) : Results σ κ :=
  { s with rewritten := rewritten }

/-- Embedding of `Results::setAutoIncrement` (lines 463-465). -/
def setAutoIncrement (s : Results σ κ) (autoIncrement : Int) : Results σ κ :=
  { s with autoIncrement := autoIncrement }

/-- Embedding of `Results::~Results` (lines 96-101): the drain runs only when the statement is
attached and has a protocol; an exception of the drain terminates the program. -/
def destroy (E : Env σ) (C : CmdOps κ) (fuel : Nat) (s : Results σ κ) :
    Results σ κ × Completion Unit :=
  match s.statement with
  | some st => if st.hasProtocol then loadFully E C fuel s true else (s, Completion.returned ())
  | none => (s, Completion.returned ())

/-- The variant of the outcome, if there is one. -/
def Results.variant? (s : Results σ κ) : Option Variant :=
  s.cmdInformation.map CmdInformation.variant

/-- The operations of one instance that change its state, with their arguments. -/
inductive Op (κ : Type)
  | record (e : Event)
  | commandEnd
  | getMoreResults (current : Int)
  | loadFully (skip : Bool) (fuel : Nat)
  | abort
  | close
  | setCmdInformation (c : Option (CmdInformation κ))

/-- The state an operation leaves behind (also when it raises). -/
def Op.run (E : Env σ) (C : CmdOps κ) (s : Results σ κ) : Op κ → Results σ κ
  | Op.record e => feed E C s e
  | Op.commandEnd => (MariaDb.commandEnd C s).1
  | Op.getMoreResults current => (MariaDb.getMoreResults E C s current).1
  | Op.loadFully skip fuel => (MariaDb.loadFully E C fuel s skip).1
  | Op.abort => (MariaDb.abort E s).1
  | Op.close => MariaDb.close s
  | Op.setCmdInformation c => MariaDb.setCmdInformation s c

/-- The state a sequence of operations leaves behind. -/
def runAll (E : Env σ) (C : CmdOps κ) (s : Results σ κ) (ops : List (Op κ)) : Results σ κ :=
  ops.foldl (Op.run E C) s

/-- The `moreResultAvailable` argument of an event. -/
def Event.more : Event → Bool
  | Event.stats _ _ m => m
  | Event.statsError m => m
  | Event.resultSet _ m => m

/-- Whether the event hands over a callable (stored-procedure) RowSet. -/
def Event.isCallable : Event → Bool
  | Event.resultSet rs _ => rs.callableResult
  | _ => false

/-- Whether the event is `addStats` or `addStatsError`. -/
def Event.isStat : Event → Bool
  | Event.resultSet _ _ => false
  | _ => true

/-- What the ingestion path needs of the command-information classes for a recorded
RowSet to be delivered: an outcome just created by `addResultSet` (a Single built with
update count `-1`, or a new Batch or Multiple after `addResultSetStat`) answers
`isCurrentUpdateCount()` with false. -/
def CmdOps.MarksResultSet (C : CmdOps κ) : Prop :=
  (∀ autoIncrement,
    C.isCurrentUpdateCount Variant.Single (C.newSingle 0 RESULT_SET_VALUE autoIncrement)
      = false) ∧
  (∀ expectedSize autoIncrement,
    C.isCurrentUpdateCount Variant.Batch
      (C.addResultSetStat Variant.Batch (C.newBatch expectedSize autoIncrement)) = false) ∧
  (∀ expectedSize autoIncrement,
    C.isCurrentUpdateCount Variant.Multiple
      (C.addResultSetStat Variant.Multiple (C.newMultiple expectedSize autoIncrement)) = false)

/-- Modelled from the spec: `SelectResultSet::createEmptyResultSet()`, a static member of
a class that is not among the sources; it yields a valid, empty RowSet. -/
def createEmptyResultSet : SelectResultSet := ⟨0, false⟩

/-- Embedding of `Results::getGeneratedKeys` (lines 439-452).  `raised` is the
`SQLException` of line 441; the RowSet built by the outcome from `protocol` (and `sql`)
is what `CmdOps` answers. -/
def getGeneratedKeys (C : CmdOps κ) (s : Results σ κ) : Completion SelectResultSet :=
  if s.autoGeneratedKeys != RETURN_GENERATED_KEYS then Completion.raised
  else
    match s.cmdInformation with
    | some c =>
      if s.batch then Completion.returned (C.getBatchGeneratedKeys c.variant c.st)
      else Completion.returned (C.getGeneratedKeys c.variant c.st s.sql)
    | none => Completion.returned createEmptyResultSet

/-- Embedding of `Results::getAutoGeneratedKeys` (lines 471-473). -/
def getAutoGeneratedKeys (s : Results σ κ) : Int :=
  s.autoGeneratedKeys

/-- The append call that the ingestion of an event makes on an outcome. -/
def Event.appendCall : Event → Call
  | Event.stats updateCount insertId _ => Call.addSuccessStat updateCount insertId
  | Event.statsError _ => Call.addErrorStat
  | Event.resultSet _ _ => Call.addResultSetStat

/-- Whether the call is `addSuccessStat`, `addErrorStat` or `addResultSetStat`. -/
def Call.isAppend : Call → Bool
  | Call.addSuccessStat _ _ => true
  | Call.addErrorStat => true
  | Call.addResultSetStat => true
  | _ => false

/-- The first event of a non-batch instance with no further result available: the case
in which a Single outcome is created. -/
def Results.shortCircuits (s : Results σ κ) (e : Event) : Bool :=
  s.cmdInformation.isNone && !s.batch && !e.more

/-- The RowSet that `loadFully` and `abort` act on while streaming: the current one if
there is one, else the front of the queue, else none. -/
def Results.streamingTarget (s : Results σ κ) : Option SelectResultSet :=
  match s.resultSet with
  | some rs => some rs
  | none => s.executionResults.head?

/-- Whether the call is made on a RowSet. -/
def Call.isRowSet : Call → Bool
  | Call.rsClose _ => true
  | Call.rsFetchRemaining _ => true
  | Call.rsAbort _ => true
  | _ => false

/-- Whether the call takes or releases the connection lock. -/
def Call.isLock : Call → Bool
  | Call.lock => true
  | Call.unlock => true
  | _ => false

/-- Whether the call is made on `Protocol` (the lock apart). -/
def Call.isProtocol : Call → Bool
  | Call.hasMoreResults => true
  | Call.moveToNextResult => true
  | Call.getResult => true
  | Call.removeActiveStreamingResult => true
  | _ => false

/-- Whether the call is one that an ingestion function makes: the release of the
streaming reservation or an append call on the outcome. -/
def Call.isIngestion : Call → Bool
  | Call.removeActiveStreamingResult => true
  | c => c.isAppend

/-- Whether the call is one that the wire steps make: a `Protocol` call or a call of the
ingestion functions that a `Protocol` call feeds. -/
def Call.isWire : Call → Bool
  | Call.hasMoreResults => true
  | Call.moveToNextResult => true
  | Call.getResult => true
  | c => c.isIngestion

/-- Whether the event is `addStatsError`. -/
def Event.isError : Event → Bool
  | Event.statsError _ => true
  | _ => false

/-- The calls logged between state `s` and a later state `s'`. -/
def Results.callsSince (s s' : Results σ κ) : List Call :=
  s'.trace.drop s.trace.length

/-- The RowSet call that `loadFully` makes before the wire loop: while streaming, one
`close` (when `skip`) or `fetchRemaining` on the streaming target, if there is one. -/
def Results.loadFullyCalls (s : Results σ κ) (skip : Bool) : List Call :=
  if s.fetchSize != 0 then
    s.streamingTarget.toList.map (if skip then Call.rsClose else Call.rsFetchRemaining)
  else []
/-- The calls that `loadFully` logs in its wire loop: those after the RowSet call. -/
def loadFullyLoopCalls (E : Env σ) (C : CmdOps κ) (fuel : Nat) (s : Results σ κ)
    (skip : Bool) : List Call :=
  (s.callsSince (loadFully E C fuel s skip).1).drop (s.loadFullyCalls skip).length

/-- The RowSet call of the streaming step of `getMoreResults`: while streaming, `close`
(for `CLOSE_CURRENT_RESULT`) or `fetchRemaining` on the current RowSet, if there is one. -/
def Results.streamingCalls (s : Results σ κ) (current : Int) : List Call :=
  if s.fetchSize != 0 then
    s.resultSet.toList.map
      (if current == CLOSE_CURRENT_RESULT then Call.rsClose else Call.rsFetchRemaining)
  else []

/-- The RowSet call of the tail of `getMoreResults`: for `CLOSE_CURRENT_RESULT`, `close`
on the current RowSet, if there is one. -/
def Results.closeCalls (s : Results σ κ) (current : Int) : List Call :=
  if current == CLOSE_CURRENT_RESULT then s.resultSet.toList.map Call.rsClose else []

/-- The RowSet calls that one call of `getMoreResults` on state `s` logs, in order. -/
def getMoreResultsRowSetCalls (E : Env σ) (C : CmdOps κ) (s : Results σ κ) (current : Int) :
    List Call :=
  (s.callsSince (getMoreResults E C s current).1).filter Call.isRowSet

end Embedding

/-! ## A command-information model and a connection for concrete runs -/

/-- Modelled from the spec: one entry of a CommandOutcome, an (update-count, insert-id)
pair; an error marker has update count `EXECUTE_FAILED`, a result-set marker `-1`. -/
structure StatEntry where
  updateCount : Int
  insertId : Int
deriving DecidableEq, Repr

/-- Modelled from the spec: the private state of a CommandOutcome (the `CmdInformation`
classes are not among the sources): the entries added so far, the index of the current
entry, and the rewrite flag. -/
structure OutcomeState where
  entries : List StatEntry
  cursor : Nat
  rewritten : Bool
deriving DecidableEq, Repr

/-- Modelled from the spec: the current entry of a CommandOutcome. -/
def OutcomeState.current? (o : OutcomeState) : Option StatEntry :=
  o.entries.get? o.cursor

/-- Modelled from the spec: the CommandOutcome variants (section 3 of the spec; the
`CmdInformation` classes are not among the sources).  Single holds exactly one entry
and ignores later events, `moreResults()` is always false for it;
Batch and Multiple append one entry per add event and `getCurrentStatNumber` is the
count of entries added so far; Multiple tracks whether more sub-results remain after
the current entry; an entry is an update count unless it is the result-set marker. -/
def specCmd : CmdOps OutcomeState where
  newBatch := fun _ _ => ⟨[], 0, false⟩
  newMultiple := fun _ _ => ⟨[], 0, false⟩
  newSingle := fun insertId updateCount _ => ⟨[⟨updateCount, insertId⟩], 0, false⟩
  addSuccessStat := fun v o updateCount insertId =>
    match v with
    | Variant.Single => o
    | _ => { o with entries := o.entries ++ [⟨updateCount, insertId⟩] }
  addErrorStat := fun v o =>
    match v with
    | Variant.Single => o
    | _ => { o with entries := o.entries ++ [⟨EXECUTE_FAILED, 0⟩] }
  addResultSetStat := fun v o =>
    match v with
    | Variant.Single => o
    | _ => { o with entries := o.entries ++ [⟨RESULT_SET_VALUE, 0⟩] }
  isCurrentUpdateCount := fun _ o =>
    match o.current? with
    | some e => e.updateCount != RESULT_SET_VALUE
    | none => true
  moreResults := fun v o =>
    match v with
    | Variant.Multiple => (decide (o.cursor + 1 < o.entries.length), { o with cursor := o.cursor + 1 })
    | _ => (false, o)
  getUpdateCount := fun _ o =>
    match o.current? with
    | some e => e.updateCount
    | none => -1
  getCurrentStatNumber := fun v o =>
    match v with
    | Variant.Single => 1
    | _ => (o.entries.length : Int)
  setRewrite := fun _ o b => { o with rewritten := b }
  getBatchGeneratedKeys := fun _ _ => ⟨0, false⟩
  getGeneratedKeys := fun _ _ _ => ⟨0, false⟩

/-- A connection for concrete runs: the sub-results still on the wire (each the events
it delivers), the sub-result the connection is positioned on, and whether RowSet
operations raise. -/
structure Wire where
  queued : List (List Event)
  incoming : List Event
  rowSetRaises : Bool
deriving DecidableEq, Repr

/-- The behaviour of `Wire`: `moveToNextResult` positions on the next queued sub-result,
`getResult` delivers it. -/
def wireEnv : Env Wire where
  hasMoreResults := fun w => !w.queued.isEmpty
  moveToNextResult := fun w => ⟨{ w with queued := w.queued.tail, incoming := w.queued.headD [] }, [], false⟩
  getResult := fun w => ⟨{ w with incoming := [] }, w.incoming, false⟩
  removeActiveStreamingResult := fun w => w
  rsClose := fun w _ => (w, w.rowSetRaises)
  rsFetchRemaining := fun w _ => (w, w.rowSetRaises)
  rsAbort := fun w _ => (w, w.rowSetRaises)
  rsIsFullyLoaded := fun _ _ => true

/-- A freshly constructed instance (no outcome, nothing queued) on connection `w`. -/
def fresh {κ : Type} (w : Wire) (fetchSize : Int) (batch : Bool) : Results Wire κ where
  statement := some ⟨true⟩
  fetchSize := fetchSize
  batch := batch
  expectedSize := 0
  binaryFormat := false
  autoGeneratedKeys := 0
  autoIncrement := 1
  sql := ""
  haveResultInWire := false
  resultSet := none
  executionResults := []
  callableResultSet := none
  cmdInformation := none
  rewritten := false
  protocol := w
  trace := []
  crashed := false

/-- An idle connection with nothing on the wire. -/
def idle : Wire := ⟨[], [], false⟩




/-- Scenario B: a fresh non-batch instance after `addResultSet(rs, false)` with the
non-callable RowSet 7. -/
def scenarioB : Results Wire OutcomeState :=
  addResultSet wireEnv specCmd (fresh idle 0 false) ⟨7, false⟩ false

/-- A fresh non-batch instance after `addStats(1, 10, false)`: a Single outcome and
nothing queued. -/
def singleStat : Results Wire OutcomeState :=
  addStats wireEnv specCmd (fresh idle 0 false) 1 10 false

/-- The state of the C8 divergence: two RowSets recorded on a fresh non-batch instance
(a Multiple outcome with two result-set entries) and `commandEnd` called twice, so that
RowSet 8 is current and the queue is empty while the outcome still has a further entry. -/
def staleCurrent : Results Wire OutcomeState :=
  runAll wireEnv specCmd (fresh idle 0 false)
    [Op.record (Event.resultSet ⟨7, false⟩ true), Op.record (Event.resultSet ⟨8, false⟩ false),
     Op.commandEnd, Op.commandEnd]

/-- A streaming instance (fetch size 10) on a connection whose RowSet operations raise:
one RowSet recorded and made current by `commandEnd`; Single outcome, nothing on the
wire, nothing queued. -/
def raisingCurrent : Results Wire OutcomeState :=
  runAll wireEnv specCmd (fresh ⟨[], [], true⟩ 10 false)
    [Op.record (Event.resultSet ⟨7, false⟩ false), Op.commandEnd]

/-- A streaming instance with a current RowSet and two further sub-results on the wire. -/
def streaming : Results Wire OutcomeState :=
  { (fresh ⟨[[Event.resultSet ⟨8, false⟩ true], [Event.stats 1 10 false]], [], false⟩ 10 false
      : Results Wire OutcomeState) with
    haveResultInWire := true,
    resultSet := some ⟨7, false⟩,
    cmdInformation := some ⟨Variant.Multiple, ⟨[⟨-1, 0⟩], 0, false⟩⟩ }

/-- Scenario A with generated keys requested: a batch instance created with
`RETURN_GENERATED_KEYS` after three successes. -/
def scenarioA : Results Wire OutcomeState :=
  feedAll wireEnv specCmd
    { (fresh idle 0 true : Results Wire OutcomeState) with
      autoGeneratedKeys := RETURN_GENERATED_KEYS }
    [Event.stats 1 10 true, Event.stats 1 11 true, Event.stats 1 12 false]

/-- A streaming instance (fetch size 10) without current RowSet and with RowSets 7 and 8
queued. -/
def queuedStreaming : Results Wire OutcomeState :=
  feedAll wireEnv specCmd (fresh idle 10 false)
    [Event.resultSet ⟨7, false⟩ true, Event.resultSet ⟨8, false⟩ false]

/-- A streaming instance (fetch size 10) on connection `w`: RowSet 7 is current, a
Multiple outcome holds its entry, and further sub-results are on the wire. -/
def streamingOn (w : Wire) : Results Wire OutcomeState :=
  { (fresh w 10 false : Results Wire OutcomeState) with
    haveResultInWire := true,
    resultSet := some ⟨7, false⟩,
    cmdInformation := some ⟨Variant.Multiple, ⟨[⟨-1, 0⟩], 0, false⟩⟩ }

/-- A connection like `wireEnv` on which failures happen: `moveToNextResult` raises
when the next sub-result on the wire is empty (nothing can be read), and `getResult`
raises after delivering a sub-result that holds an error event (an error packet). -/
def faultyEnv : Env Wire where
  hasMoreResults := fun w => !w.queued.isEmpty
  moveToNextResult := fun w =>
    ⟨{ w with queued := w.queued.tail, incoming := w.queued.headD [] }, [],
      (w.queued.headD []).isEmpty⟩
  getResult := fun w =>
    ⟨{ w with incoming := [] }, w.incoming, w.incoming.any Event.isError⟩
  removeActiveStreamingResult := fun w => w
  rsClose := fun w _ => (w, w.rowSetRaises)
  rsFetchRemaining := fun w _ => (w, w.rowSetRaises)
  rsAbort := fun w _ => (w, w.rowSetRaises)
  rsIsFullyLoaded := fun _ _ => true

/-- The state `raisingCurrent` after the outcome setter was given the null pointer:
no outcome, nothing on the wire, a streaming current RowSet whose `close` raises. -/
def raisingNoOutcome : Results Wire OutcomeState :=
  setCmdInformation raisingCurrent none

/-- The streaming instance after `commandEnd`-style delivery on a connection without
failures: fetch size 10, RowSet 7 current, Single outcome, nothing on the wire. -/
def streamingSingle : Results Wire OutcomeState :=
  runAll wireEnv specCmd (fresh idle 10 false)
    [Op.record (Event.resultSet ⟨7, false⟩ false), Op.commandEnd]

/-- A non-batch instance that received the callable RowSet 3 with a further result
available (no outcome, a result still on the wire) and was then closed. -/
def closedNoOutcome : Results Wire OutcomeState :=
  close (addResultSet wireEnv specCmd (fresh idle 0 false) ⟨3, true⟩ true)

/-- A batch instance on a connection that holds two further sub-results: RowSet 7 is
recorded with a further result available and made current by `commandEnd`, then
`getMoreResults` reads the first sub-result off the wire (an update count with a further
result available) and, the outcome being a batch outcome whose current entry is the
result-set marker, clears `haveResultInWire` (lines 379-382).  The second sub-result is
still on the connection. -/
def clearedOnWire : Results Wire OutcomeState :=
  runAll wireEnv specCmd
    (fresh ⟨[[Event.stats 1 10 true], [Event.stats 1 11 false]], [], false⟩ 0 true)
    [Op.record (Event.resultSet ⟨7, false⟩ true), Op.commandEnd, Op.getMoreResults 1]

/-! ## Properties -/


section Frame

variable {σ κ : Type}

/-- The completed first statements of the ingestion functions set `haveResultInWire` to the flag. -/
@[simp]
theorem bookkept_haveResultInWire (E : Env σ) (s : Results σ κ) (m : Bool) :
    (s.bookkept E m).haveResultInWire = m := by
  by_cases h : (s.haveResultInWire && !m && s.fetchSize == 0) = true <;>
    simp [Results.bookkept, Results.removeActiveStreamingResult, h]

/-- The completed first statements of the ingestion functions leave `fetchSize` alone. -/
@[simp]
theorem bookkept_fetchSize (E : Env σ) (s : Results σ κ) (m : Bool) :
    (s.bookkept E m).fetchSize = s.fetchSize := by
  by_cases h : (s.haveResultInWire && !m && s.fetchSize == 0) = true <;>
    simp [Results.bookkept, Results.removeActiveStreamingResult, h]

/-- The completed first statements of the ingestion functions leave `batch` alone. -/
@[simp]
theorem bookkept_batch (E : Env σ) (s : Results σ κ) (m : Bool) :
    (s.bookkept E m).batch = s.batch := by
  by_cases h : (s.haveResultInWire && !m && s.fetchSize == 0) = true <;>
    simp [Results.bookkept, Results.removeActiveStreamingResult, h]

/-- The completed first statements of the ingestion functions leave `cmdInformation` alone. -/
@[simp]
theorem bookkept_cmdInformation (E : Env σ) (s : Results σ κ) (m : Bool) :
    (s.bookkept E m).cmdInformation = s.cmdInformation := by
  by_cases h : (s.haveResultInWire && !m && s.fetchSize == 0) = true <;>
    simp [Results.bookkept, Results.removeActiveStreamingResult, h]

/-- The completed first statements of the ingestion functions leave `executionResults` alone. -/
@[simp]
theorem bookkept_executionResults (E : Env σ) (s : Results σ κ) (m : Bool) :
    (s.bookkept E m).executionResults = s.executionResults := by
  by_cases h : (s.haveResultInWire && !m && s.fetchSize == 0) = true <;>
    simp [Results.bookkept, Results.removeActiveStreamingResult, h]

/-- The completed first statements of the ingestion functions leave `resultSet` alone. -/
@[simp]
theorem bookkept_resultSet (E : Env σ) (s : Results σ κ) (m : Bool) :
    (s.bookkept E m).resultSet = s.resultSet := by
  by_cases h : (s.haveResultInWire && !m && s.fetchSize == 0) = true <;>
    simp [Results.bookkept, Results.removeActiveStreamingResult, h]

/-- The completed first statements of the ingestion functions leave `callableResultSet` alone. -/
@[simp]
theorem bookkept_callableResultSet (E : Env σ) (s : Results σ κ) (m : Bool) :
    (s.bookkept E m).callableResultSet = s.callableResultSet := by
  by_cases h : (s.haveResultInWire && !m && s.fetchSize == 0) = true <;>
    simp [Results.bookkept, Results.removeActiveStreamingResult, h]

/-- The completed first statements of the ingestion functions leave `statement` alone. -/
@[simp]
theorem bookkept_statement (E : Env σ) (s : Results σ κ) (m : Bool) :
    (s.bookkept E m).statement = s.statement := by
  by_cases h : (s.haveResultInWire && !m && s.fetchSize == 0) = true <;>
    simp [Results.bookkept, Results.removeActiveStreamingResult, h]

/-- The completed first statements of the ingestion functions leave `rewritten` alone. -/
@[simp]
theorem bookkept_rewritten (E : Env σ) (s : Results σ κ) (m : Bool) :
    (s.bookkept E m).rewritten = s.rewritten := by
  by_cases h : (s.haveResultInWire && !m && s.fetchSize == 0) = true <;>
    simp [Results.bookkept, Results.removeActiveStreamingResult, h]

/-- The completed first statements of the ingestion functions leave `expectedSize` alone. -/
@[simp]
theorem bookkept_expectedSize (E : Env σ) (s : Results σ κ) (m : Bool) :
    (s.bookkept E m).expectedSize = s.expectedSize := by
  by_cases h : (s.haveResultInWire && !m && s.fetchSize == 0) = true <;>
    simp [Results.bookkept, Results.removeActiveStreamingResult, h]

/-- The completed first statements of the ingestion functions leave `autoIncrement` alone. -/
@[simp]
theorem bookkept_autoIncrement (E : Env σ) (s : Results σ κ) (m : Bool) :
    (s.bookkept E m).autoIncrement = s.autoIncrement := by
  by_cases h : (s.haveResultInWire && !m && s.fetchSize == 0) = true <;>
    simp [Results.bookkept, Results.removeActiveStreamingResult, h]

/-- The completed first statements of the ingestion functions log the release of the streaming
reservation when it is due, and nothing else. -/
@[simp]
theorem bookkept_trace (E : Env σ) (s : Results σ κ) (m : Bool) :
    (s.bookkept E m).trace =
      s.trace ++ (if s.haveResultInWire && !m && s.fetchSize == 0
                  then [Call.removeActiveStreamingResult] else []) := by
  by_cases h : (s.haveResultInWire && !m && s.fetchSize == 0) = true <;>
    simp [Results.bookkept, Results.removeActiveStreamingResult, h]

/-- The completed first statements of the ingestion functions leave `protocol` alone
unless the release is due. -/
@[simp]
theorem bookkept_protocol (E : Env σ) (s : Results σ κ) (m : Bool) :
    (s.bookkept E m).protocol =
      if s.haveResultInWire && !m && s.fetchSize == 0
      then E.removeActiveStreamingResult s.protocol else s.protocol := by
  by_cases h : (s.haveResultInWire && !m && s.fetchSize == 0) = true <;>
    simp [Results.bookkept, Results.removeActiveStreamingResult, h]

/-- The completed first statements of the ingestion functions leave the mark `crashed`
alone. -/
@[simp]
theorem bookkept_crashed (E : Env σ) (s : Results σ κ) (m : Bool) :
    (s.bookkept E m).crashed = s.crashed := by
  by_cases h : (s.haveResultInWire && !m && s.fetchSize == 0) = true <;>
    simp [Results.bookkept, Results.removeActiveStreamingResult, h]

/-- The first statements of the ingestion functions stop exactly on a null dereference,
and complete otherwise. -/
theorem wireBookkeeping_eq (E : Env σ) (s : Results σ κ) (m : Bool) :
    s.wireBookkeeping E m = if s.nullDereference m then none else some (s.bookkept E m) := by
  by_cases h : (s.haveResultInWire && !m && s.fetchSize == 0) = true <;>
    cases hp : s.protocolAttached <;>
    simp [Results.wireBookkeeping, Results.bookkept, Results.nullDereference,
      Results.releaseDue, h, hp]

/-- What the first statements of an ingestion function yield, when they yield a state. -/
theorem wireBookkeeping_some (E : Env σ) (s s2 : Results σ κ) (m : Bool)
    (h : s.wireBookkeeping E m = some s2) :
    s.nullDereference m = false ∧ s2 = s.bookkept E m := by
  rw [wireBookkeeping_eq] at h
  cases hn : s.nullDereference m <;> simp_all

/-- The ingestion functions write neither `fetchSize`, `batch`, `resultSet`, `statement`
nor `rewritten`. -/
theorem feed_frame (E : Env σ) (C : CmdOps κ) (s : Results σ κ) (e : Event) :
    (feed E C s e).fetchSize = s.fetchSize ∧
    (feed E C s e).batch = s.batch ∧
    (feed E C s e).resultSet = s.resultSet ∧
    (feed E C s e).statement = s.statement ∧
    (feed E C s e).rewritten = s.rewritten := by
  cases e <;> simp only [feed, addStats, addStatsError, addResultSet, Event.more]
  all_goals split
  all_goals try simp
  all_goals
    rename_i s2 h2
    obtain ⟨-, rfl⟩ := wireBookkeeping_some E s s2 _ h2
    repeat' split
  all_goals
    simp [Results.callAddSuccessStat, Results.callAddErrorStat, Results.callAddResultSetStat]

/-- An outcome that exists keeps its variant through an ingestion function. -/
theorem feed_variant (E : Env σ) (C : CmdOps κ) (s : Results σ κ) (e : Event) (v : Variant)
    (h : s.variant? = some v) : (feed E C s e).variant? = some v := by
  obtain ⟨c, hc, rfl⟩ : ∃ c, s.cmdInformation = some c ∧ c.variant = v := by
    simpa [Results.variant?] using h
  cases e <;> simp only [feed, addStats, addStatsError, addResultSet]
  all_goals split
  all_goals try simp [Results.variant?, hc]
  all_goals
    rename_i s2 h2
    obtain ⟨-, rfl⟩ := wireBookkeeping_some E s s2 _ h2
    repeat' split
  all_goals
    simp_all [Results.callAddSuccessStat, Results.callAddErrorStat, Results.callAddResultSetStat,
      Results.variant?]

/-- An outcome that exists keeps its variant through any sequence of events. -/
theorem feedAll_variant (E : Env σ) (C : CmdOps κ) (evs : List Event) (s : Results σ κ)
    (v : Variant) (h : s.variant? = some v) : (feedAll E C s evs).variant? = some v := by
  induction evs generalizing s with
  | nil => simpa [feedAll] using h
  | cons e es ih => exact ih (feed E C s e) (feed_variant E C s e v h)

/-- A `Protocol` call keeps the variant of an existing outcome. -/
theorem protocolCall_variant (E : Env σ) (C : CmdOps κ) (s : Results σ κ) (c : Call)
    (r : Reply σ) (v : Variant) (h : s.variant? = some v) :
    (s.protocolCall E C c r).1.variant? = some v := by
  unfold Results.protocolCall
  exact feedAll_variant E C r.events _ v (by simpa [Results.variant?] using h)

/-- What the first half of `loadFully` leaves untouched; `fetchSize` is 0 after it. -/
theorem loadFullyCurrent_frame (E : Env σ) (s : Results σ κ) (skip : Bool) :
    (loadFullyCurrent E s skip).1.cmdInformation = s.cmdInformation ∧
    (loadFullyCurrent E s skip).1.fetchSize = 0 ∧
    (loadFullyCurrent E s skip).1.haveResultInWire = s.haveResultInWire ∧
    (loadFullyCurrent E s skip).1.resultSet = s.resultSet ∧
    (loadFullyCurrent E s skip).1.executionResults = s.executionResults := by
  simp only [loadFullyCurrent]
  repeat' split
  all_goals simp_all [Results.callClose, Results.callFetchRemaining]

/-- The streaming step of `getMoreResults` only calls the RowSet. -/
theorem getMoreResultsCurrent_frame (E : Env σ) (s : Results σ κ) (current : Int) :
    (getMoreResultsCurrent E s current).1.cmdInformation = s.cmdInformation ∧
    (getMoreResultsCurrent E s current).1.fetchSize = s.fetchSize ∧
    (getMoreResultsCurrent E s current).1.haveResultInWire = s.haveResultInWire ∧
    (getMoreResultsCurrent E s current).1.resultSet = s.resultSet ∧
    (getMoreResultsCurrent E s current).1.executionResults = s.executionResults ∧
    (getMoreResultsCurrent E s current).1.batch = s.batch := by
  simp only [getMoreResultsCurrent]
  repeat' split
  all_goals simp_all [Results.callClose, Results.callFetchRemaining]

/-- The wire step of `getMoreResults` keeps the variant of an existing outcome. -/
theorem getMoreResultsWire_variant (E : Env σ) (C : CmdOps κ) (s : Results σ κ)
    (v : Variant) (h : s.variant? = some v) :
    (getMoreResultsWire E C s).1.variant? = some v := by
  simp only [getMoreResultsWire]
  split
  · split
    · exact protocolCall_variant E C _ _ _ v h
    · exact protocolCall_variant E C _ _ _ v (protocolCall_variant E C _ _ _ v h)
  · exact h

/-- The functions `addStats` and `addStatsError` leave the queue and the callable RowSet alone. -/
theorem feed_stat_executionResults (E : Env σ) (C : CmdOps κ) (s : Results σ κ) (e : Event)
    (h : e.isStat = true) : (feed E C s e).executionResults = s.executionResults := by
  cases e <;> simp only [feed, addStats, addStatsError, Event.isStat] at h ⊢
  all_goals try contradiction
  all_goals split
  all_goals try simp
  all_goals
    rename_i s2 h2
    obtain ⟨-, rfl⟩ := wireBookkeeping_some E s s2 _ h2
    repeat' split
  all_goals
    simp_all [Results.callAddSuccessStat, Results.callAddErrorStat]

/-- A sequence of `addStats` / `addStatsError` calls leaves the queue alone. -/
theorem feedAll_stat_executionResults (E : Env σ) (C : CmdOps κ) (evs : List Event)
    (s : Results σ κ) (h : ∀ e ∈ evs, e.isStat = true) :
    (feedAll E C s evs).executionResults = s.executionResults := by
  induction evs generalizing s with
  | nil => rfl
  | cons e es ih =>
    have h1 := feed_stat_executionResults E C s e (h e (List.mem_cons_self _ _))
    have h2 := ih (feed E C s e) (fun x hx => h x (List.mem_cons_of_mem _ hx))
    simpa [feedAll, h1] using h2

/-- The function `commandEnd` with an empty queue clears the current RowSet. -/
theorem commandEnd_empty_queue (C : CmdOps κ) (s : Results σ κ)
    (h : s.executionResults = []) : (commandEnd C s).1.resultSet = none := by
  cases hc : s.cmdInformation <;> simp [commandEnd, hc, h]

/-- With nothing on the wire the wire step of `getMoreResults` does nothing. -/
theorem getMoreResultsWire_idle (E : Env σ) (C : CmdOps κ) (s : Results σ κ)
    (h : s.haveResultInWire = false) : getMoreResultsWire E C s = (s, false) := by
  simp [getMoreResultsWire, h]

/-- Without a current RowSet the streaming step of `getMoreResults` does nothing. -/
theorem getMoreResultsCurrent_none (E : Env σ) (s : Results σ κ) (current : Int)
    (h : s.resultSet = none) : getMoreResultsCurrent E s current = (s, false) := by
  simp only [getMoreResultsCurrent]
  split
  · simp [h]
  · rfl

/-- The tail of `getMoreResults` on a state with nothing on the wire, nothing queued and
an outcome that reports no further sub-result: it returns false or raises, and when it
returns the current RowSet is cleared and nothing else of the wire state is touched. -/
theorem getMoreResultsTail_exhausted (E : Env σ) (C : CmdOps κ) (s : Results σ κ)
    (c : CmdInformation κ) (hc : s.cmdInformation = some c)
    (hw : s.haveResultInWire = false) (hq : s.executionResults = [])
    (hm : (C.moreResults c.variant c.st).1 = false) (current : Int) :
    ((getMoreResultsTail E C s current).2 = Completion.returned false ∨
      (getMoreResultsTail E C s current).2 = Completion.raised) ∧
    (s.resultSet = none → (getMoreResultsTail E C s current).2 = Completion.returned false) ∧
    ((getMoreResultsTail E C s current).2 = Completion.returned false →
      (getMoreResultsTail E C s current).1.resultSet = none ∧
      (getMoreResultsTail E C s current).1.executionResults = [] ∧
      (getMoreResultsTail E C s current).1.haveResultInWire = false ∧
      (getMoreResultsTail E C s current).1.fetchSize = s.fetchSize ∧
      (getMoreResultsTail E C s current).1.cmdInformation.isSome = true) := by
  simp only [getMoreResultsTail, hc, hm, Results.closeCurrentIfAsked]
  cases hr : s.resultSet with
  | none => simp [hw, hq, Results.log]
  | some rs =>
    by_cases hcur : current = CLOSE_CURRENT_RESULT
    · cases hx : (E.rsClose s.protocol rs).2 <;>
        simp [hw, hq, hcur, hx, Results.log, Results.callClose]
    · simp [hw, hq, hcur, Results.log]

/-- A call of `getMoreResults` on a state without current RowSet, with nothing on the
wire and nothing queued, returns false whatever the outcome answers, and only takes and
releases the lock. -/
theorem getMoreResults_quiescent (E : Env σ) (C : CmdOps κ) (s : Results σ κ)
    (hc : s.cmdInformation.isSome = true) (hw : s.haveResultInWire = false)
    (hq : s.executionResults = []) (hr : s.resultSet = none) (current : Int) :
    (getMoreResults E C s current).2 = Completion.returned false ∧
    (getMoreResults E C s current).1.haveResultInWire = s.haveResultInWire ∧
    (getMoreResults E C s current).1.fetchSize = s.fetchSize ∧
    (getMoreResults E C s current).1.resultSet = s.resultSet ∧
    (getMoreResults E C s current).1.executionResults = s.executionResults ∧
    (getMoreResults E C s current).1.protocol = s.protocol ∧
    (getMoreResults E C s current).1.trace = s.trace ++ [Call.lock, Call.unlock] := by
  obtain ⟨c, hc⟩ := Option.isSome_iff_exists.mp hc
  have h1 : getMoreResultsCurrent E (s.log Call.lock) current = (s.log Call.lock, false) :=
    getMoreResultsCurrent_none E _ current (by simpa [Results.log] using hr)
  have h2 : getMoreResultsWire E C (s.log Call.lock) = (s.log Call.lock, false) :=
    getMoreResultsWire_idle E C _ (by simpa [Results.log] using hw)
  simp only [getMoreResults, h1, h2]
  simp only [getMoreResultsTail, Results.log, hc, Results.closeCurrentIfAsked, hr, hq, hw]
  cases hm : (C.moreResults c.variant c.st).1 <;> cases hb : s.batch <;>
    simp [hm, hb, hr, hq, hw]

/-- A sequence of events never writes `fetchSize`. -/
theorem feedAll_fetchSize (E : Env σ) (C : CmdOps κ) (evs : List Event) (s : Results σ κ) :
    (feedAll E C s evs).fetchSize = s.fetchSize := by
  induction evs generalizing s with
  | nil => rfl
  | cons e es ih =>
    have h := ih (feed E C s e)
    rw [(feed_frame E C s e).1] at h
    simpa [feedAll] using h

/-- A `Protocol` call never writes `fetchSize`. -/
theorem protocolCall_fetchSize (E : Env σ) (C : CmdOps κ) (s : Results σ κ) (c : Call)
    (r : Reply σ) : (s.protocolCall E C c r).1.fetchSize = s.fetchSize := by
  unfold Results.protocolCall
  exact feedAll_fetchSize E C r.events _

/-- The drain loop never writes `fetchSize`, and when it returns normally
`haveResultInWire` is false. -/
theorem loadFullyLoop_frame (E : Env σ) (C : CmdOps κ) (skip : Bool) (fuel : Nat)
    (s : Results σ κ) :
    (loadFullyLoop E C skip fuel s).1.fetchSize = s.fetchSize ∧
    ((loadFullyLoop E C skip fuel s).2 = Completion.returned () →
      (loadFullyLoop E C skip fuel s).1.haveResultInWire = false) := by
  induction fuel generalizing s with
  | zero => simp [loadFullyLoop]
  | succ n ih =>
    have hm := protocolCall_fetchSize E C (s.log Call.hasMoreResults) Call.moveToNextResult
      (E.moveToNextResult (s.log Call.hasMoreResults).protocol)
    have hg := protocolCall_fetchSize E C
      ((s.log Call.hasMoreResults).protocolCall E C Call.moveToNextResult
        (E.moveToNextResult (s.log Call.hasMoreResults).protocol)).1 Call.getResult
      (E.getResult ((s.log Call.hasMoreResults).protocolCall E C Call.moveToNextResult
        (E.moveToNextResult (s.log Call.hasMoreResults).protocol)).1.protocol)
    have h0 : (s.log Call.hasMoreResults).fetchSize = s.fetchSize := rfl
    simp only [loadFullyLoop]
    split
    · split
      · exact ⟨hm.trans h0, by simp⟩
      · split
        · split
          · exact ⟨hg.trans (hm.trans h0), by simp⟩
          · exact ⟨(ih _).1.trans (hg.trans (hm.trans h0)), (ih _).2⟩
        · exact ⟨(ih _).1.trans (hm.trans h0), (ih _).2⟩
    · exact ⟨rfl, fun _ => rfl⟩

/-- When the drain loop returns normally the connection reports no further sub-result. -/
theorem loadFullyLoop_exhausts (E : Env σ) (C : CmdOps κ) (skip : Bool) (fuel : Nat)
    (s : Results σ κ) (h : (loadFullyLoop E C skip fuel s).2 = Completion.returned ()) :
    E.hasMoreResults (loadFullyLoop E C skip fuel s).1.protocol = false := by
  induction fuel generalizing s with
  | zero => simp [loadFullyLoop] at h
  | succ n ih =>
    simp only [loadFullyLoop] at h ⊢
    split at h
    · split at h
      · cases h
      · split at h
        · split at h
          · cases h
          · rename_i h1 h2 h3 h4
            simp only [h1, h2, h3, h4, if_true, if_false]
            exact ih _ h
        · rename_i h1 h2 h3
          simp only [h1, h2, h3, if_true, if_false]
          exact ih _ h
    · rename_i h1
      simp only [h1, if_false]
      simpa [Results.log] using h1

/-- When `loadFully` returns normally, `fetchSize` is 0, `haveResultInWire` is false, and
if something was on the wire the connection reports no further sub-result. -/
theorem loadFully_drained (E : Env σ) (C : CmdOps κ) (fuel : Nat) (s : Results σ κ)
    (skip : Bool) (h : (loadFully E C fuel s skip).2 = Completion.returned ()) :
    (loadFully E C fuel s skip).1.fetchSize = 0 ∧
    (loadFully E C fuel s skip).1.haveResultInWire = false ∧
    (s.haveResultInWire = true →
      E.hasMoreResults (loadFully E C fuel s skip).1.protocol = false) := by
  obtain ⟨-, f2, f3, -, -⟩ := loadFullyCurrent_frame E s skip
  simp only [loadFully] at h ⊢
  split at h
  · cases h
  · split at h
    · rename_i h1 h2
      simp only [h1, h2, if_true, if_false]
      exact ⟨(loadFullyLoop_frame E C skip fuel _).1.trans f2,
        (loadFullyLoop_frame E C skip fuel _).2 h, fun _ => loadFullyLoop_exhausts E C skip fuel _ h⟩
    · rename_i h1 h2
      simp only [h1, h2, if_false]
      refine ⟨f2, by simpa using h2, ?_⟩
      intro hw
      rw [f3] at h2
      exact absurd hw h2

/-- The log after the ingestion of an event that is not a callable RowSet: the release
of the streaming reservation when it is due, then the append call unless a Single
outcome has just been created. -/
theorem feed_trace (E : Env σ) (C : CmdOps κ) (s : Results σ κ) (e : Event)
    (he : e.isCallable = false) (hn : s.nullDereference e.more = false) :
    (feed E C s e).trace =
      s.trace ++ (if s.haveResultInWire && !e.more && s.fetchSize == 0
                  then [Call.removeActiveStreamingResult] else [])
        ++ (if s.shortCircuits e then [] else [e.appendCall]) := by
  cases e <;>
    simp only [feed, addStats, addStatsError, addResultSet, Event.isCallable, Event.more,
      Results.shortCircuits, Event.appendCall, wireBookkeeping_eq] at he hn ⊢
  all_goals simp only [hn, Bool.false_eq_true, if_false]
  all_goals
    cases hc : s.cmdInformation <;> cases hb : s.batch <;>
      rename_i more <;> cases more <;>
      simp [hc, hb, he, Results.callAddSuccessStat, Results.callAddErrorStat,
        Results.callAddResultSetStat]

/-- Logging a call leaves `executionResults` alone. -/
@[simp]
theorem log_executionResults (s : Results σ κ) (c : Call) : (s.log c).executionResults = s.executionResults := rfl

/-- Logging a call leaves `resultSet` alone. -/
@[simp]
theorem log_resultSet (s : Results σ κ) (c : Call) : (s.log c).resultSet = s.resultSet := rfl

/-- Logging a call leaves `cmdInformation` alone. -/
@[simp]
theorem log_cmdInformation (s : Results σ κ) (c : Call) : (s.log c).cmdInformation = s.cmdInformation := rfl

/-- Logging a call leaves `fetchSize` alone. -/
@[simp]
theorem log_fetchSize (s : Results σ κ) (c : Call) : (s.log c).fetchSize = s.fetchSize := rfl

/-- Logging a call leaves `haveResultInWire` alone. -/
@[simp]
theorem log_haveResultInWire (s : Results σ κ) (c : Call) : (s.log c).haveResultInWire = s.haveResultInWire := rfl

/-- Logging a call leaves `protocol` alone. -/
@[simp]
theorem log_protocol (s : Results σ κ) (c : Call) : (s.log c).protocol = s.protocol := rfl

/-- Logging a call leaves `batch` alone. -/
@[simp]
theorem log_batch (s : Results σ κ) (c : Call) : (s.log c).batch = s.batch := rfl

/-- Logging a call leaves `statement` alone. -/
@[simp]
theorem log_statement (s : Results σ κ) (c : Call) : (s.log c).statement = s.statement := rfl

/-- Logging a call appends it to the log. -/
@[simp]
theorem log_trace (s : Results σ κ) (c : Call) : (s.log c).trace = s.trace ++ [c] := rfl

/-- An ingestion function extends the log by ingestion calls only. -/
theorem feed_ext (E : Env σ) (C : CmdOps κ) (s : Results σ κ) (e : Event) :
    ∃ t, (feed E C s e).trace = s.trace ++ t ∧ ∀ c ∈ t, c.isIngestion = true := by
  cases e <;> simp only [feed, addStats, addStatsError, addResultSet]
  all_goals split
  all_goals try (refine ⟨[], ?_, ?_⟩ <;> (simp; done))
  all_goals
    rename_i s2 h2
    obtain ⟨-, rfl⟩ := wireBookkeeping_some E s s2 _ h2
    repeat' split
  all_goals
    simp only [Results.callAddSuccessStat, Results.callAddErrorStat,
      Results.callAddResultSetStat, bookkept_trace, List.append_assoc]
  all_goals
    refine ⟨_, rfl, ?_⟩
    intro c hc
    split at hc <;> simp at hc <;> rcases hc with rfl | rfl <;> rfl


/-- A sequence of events extends the log by ingestion calls only. -/
theorem feedAll_ext (E : Env σ) (C : CmdOps κ) (evs : List Event) (s : Results σ κ) :
    ∃ t, (feedAll E C s evs).trace = s.trace ++ t ∧ ∀ c ∈ t, c.isIngestion = true := by
  induction evs generalizing s with
  | nil => exact ⟨[], by simp [feedAll], by simp⟩
  | cons e es ih =>
    obtain ⟨t1, h1, p1⟩ := feed_ext E C s e
    obtain ⟨t2, h2, p2⟩ := ih (feed E C s e)
    refine ⟨t1 ++ t2, ?_, ?_⟩
    · have : feedAll E C s (e :: es) = feedAll E C (feed E C s e) es := rfl
      rw [this, h2, h1, List.append_assoc]
    · intro c hc
      rcases List.mem_append.mp hc with h | h
      · exact p1 c h
      · exact p2 c h

/-- A `Protocol` call extends the log by itself and the ingestion calls it feeds. -/
theorem protocolCall_ext (E : Env σ) (C : CmdOps κ) (s : Results σ κ) (c : Call)
    (r : Reply σ) :
    ∃ t, (s.protocolCall E C c r).1.trace = s.trace ++ c :: t ∧
      ∀ x ∈ t, x.isIngestion = true := by
  obtain ⟨t, h, p⟩ := feedAll_ext E C r.events
    { s with protocol := r.next, trace := s.trace ++ [c] }
  refine ⟨t, ?_, p⟩
  unfold Results.protocolCall
  rw [h]
  simp

/-- Ingestion calls are neither `moveToNextResult` nor `getResult`, and are wire calls
that touch neither a RowSet nor the lock. -/
theorem isIngestion_facts (c : Call) (h : c.isIngestion = true) :
    c ≠ Call.moveToNextResult ∧ c ≠ Call.getResult ∧ c ≠ Call.hasMoreResults ∧
    c.isWire = true ∧ c.isRowSet = false ∧ c.isLock = false := by
  cases c <;> simp_all [Call.isIngestion, Call.isAppend, Call.isWire, Call.isRowSet, Call.isLock]

/-- Wire calls touch neither a RowSet nor the lock. -/
theorem isWire_facts (c : Call) (h : c.isWire = true) :
    c.isRowSet = false ∧ c.isLock = false := by
  cases c <;> simp_all [Call.isIngestion, Call.isAppend, Call.isWire, Call.isRowSet, Call.isLock]

/-- A list of ingestion calls holds no `moveToNextResult` and no `getResult`. -/
theorem ingestion_counts (t : List Call) (h : ∀ c ∈ t, c.isIngestion = true) :
    t.count Call.moveToNextResult = 0 ∧ t.count Call.getResult = 0 := by
  refine ⟨List.count_eq_zero.mpr ?_, List.count_eq_zero.mpr ?_⟩
  · intro hm
    exact (isIngestion_facts _ (h _ hm)).1 rfl
  · intro hm
    exact (isIngestion_facts _ (h _ hm)).2.1 rfl

/-- The calls of the drain loop: wire calls only; `getResult` never when `skip` is set;
otherwise one `getResult` per `moveToNextResult`, except that a call which raises ends
the loop (so at most one `moveToNextResult` is left without its `getResult`). -/
theorem loadFullyLoop_ext (E : Env σ) (C : CmdOps κ) (skip : Bool) (fuel : Nat)
    (s : Results σ κ) :
    ∃ t, (loadFullyLoop E C skip fuel s).1.trace = s.trace ++ t ∧
      (∀ c ∈ t, c.isWire = true) ∧
      (skip = true → t.count Call.getResult = 0) ∧
      (skip = false →
        t.count Call.getResult ≤ t.count Call.moveToNextResult ∧
        t.count Call.moveToNextResult ≤ t.count Call.getResult + 1 ∧
        ((loadFullyLoop E C skip fuel s).2 ≠ Completion.raised →
          t.count Call.getResult = t.count Call.moveToNextResult)) := by
  induction fuel generalizing s with
  | zero => exact ⟨[], by simp [loadFullyLoop], by simp, by simp, by simp⟩
  | succ n ih =>
    obtain ⟨tm, hm, pm⟩ := protocolCall_ext E C (s.log Call.hasMoreResults)
      Call.moveToNextResult (E.moveToNextResult (s.log Call.hasMoreResults).protocol)
    obtain ⟨tg, hg, pg⟩ := protocolCall_ext E C
      ((s.log Call.hasMoreResults).protocolCall E C Call.moveToNextResult
        (E.moveToNextResult (s.log Call.hasMoreResults).protocol)).1 Call.getResult
      (E.getResult ((s.log Call.hasMoreResults).protocolCall E C Call.moveToNextResult
        (E.moveToNextResult (s.log Call.hasMoreResults).protocol)).1.protocol)
    obtain ⟨cm1, cm2⟩ := ingestion_counts tm pm
    obtain ⟨cg1, cg2⟩ := ingestion_counts tg pg
    have wm : ∀ c ∈ tm, c.isWire = true := fun c hc => (isIngestion_facts c (pm c hc)).2.2.2.1
    have wg : ∀ c ∈ tg, c.isWire = true := fun c hc => (isIngestion_facts c (pg c hc)).2.2.2.1
    rw [hm] at hg
    simp only [log_trace] at hm hg
    simp only [loadFullyLoop]
    split
    · split
      · refine ⟨Call.hasMoreResults :: Call.moveToNextResult :: tm, by rw [hm]; simp, ?_, ?_, ?_⟩
        · intro c hc
          simp at hc
          rcases hc with rfl | rfl | hc
          · rfl
          · rfl
          · exact wm c hc
        · intro _; simp [cm2]
        · intro _; simp [cm1, cm2]
      · split
        · split
          · refine ⟨Call.hasMoreResults :: Call.moveToNextResult :: tm ++ Call.getResult :: tg,
              by rw [hg]; simp, ?_, ?_, ?_⟩
            · intro c hc
              simp at hc
              rcases hc with rfl | rfl | hc | rfl | hc
              · rfl
              · rfl
              · exact wm c hc
              · rfl
              · exact wg c hc
            · intro hs; simp_all
            · intro _; simp [cm1, cm2, cg1, cg2, List.count_append]
          · obtain ⟨t, ht, wt, c1, c2⟩ := ih
              (((s.log Call.hasMoreResults).protocolCall E C Call.moveToNextResult
                (E.moveToNextResult (s.log Call.hasMoreResults).protocol)).1.protocolCall E C
                Call.getResult
                (E.getResult ((s.log Call.hasMoreResults).protocolCall E C Call.moveToNextResult
                  (E.moveToNextResult (s.log Call.hasMoreResults).protocol)).1.protocol)).1
            refine ⟨Call.hasMoreResults :: Call.moveToNextResult :: tm ++ Call.getResult :: tg ++ t,
              by rw [ht, hg]; simp, ?_, ?_, ?_⟩
            · intro c hc
              simp at hc
              rcases hc with rfl | rfl | hc | rfl | hc | hc
              · rfl
              · rfl
              · exact wm c hc
              · rfl
              · exact wg c hc
              · exact wt c hc
            · intro hs; simp_all
            · intro hs
              obtain ⟨d1, d2, d3⟩ := c2 hs
              simp only [List.count_append, List.count_cons, cm1, cm2, cg1, cg2]
              simp
              refine ⟨by omega, by omega, fun hne => ?_⟩
              have := d3 hne
              omega
        · obtain ⟨t, ht, wt, c1, c2⟩ := ih
            ((s.log Call.hasMoreResults).protocolCall E C Call.moveToNextResult
              (E.moveToNextResult (s.log Call.hasMoreResults).protocol)).1
          refine ⟨Call.hasMoreResults :: Call.moveToNextResult :: tm ++ t,
            by rw [ht, hm]; simp, ?_, ?_, ?_⟩
          · intro c hc
            simp at hc
            rcases hc with rfl | rfl | hc | hc
            · rfl
            · rfl
            · exact wm c hc
            · exact wt c hc
          · intro hs
            have := c1 hs
            simp [List.count_append, cm2, this]
          · intro hs; simp_all
    · exact ⟨[Call.hasMoreResults], by simp, by simp [Call.isWire], by simp, by simp⟩

/-- The log after the first half of `loadFully`. -/
theorem loadFullyCurrent_trace (E : Env σ) (s : Results σ κ) (skip : Bool) :
    (loadFullyCurrent E s skip).1.trace = s.trace ++ s.loadFullyCalls skip := by
  simp only [loadFullyCurrent, Results.loadFullyCalls, Results.streamingTarget]
  cases hf : (s.fetchSize != 0) <;> cases hr : s.resultSet <;>
    cases hq : s.executionResults <;> cases skip <;>
    simp [Results.callClose, Results.callFetchRemaining, hr, hq]

/-- The log of `loadFully`: the RowSet call on the streaming target, then the calls of
the wire loop, of which there is none when nothing is on the wire or the RowSet call
raised. -/
theorem loadFully_ext (E : Env σ) (C : CmdOps κ) (fuel : Nat) (s : Results σ κ)
    (skip : Bool) :
    ∃ t, (loadFully E C fuel s skip).1.trace = s.trace ++ s.loadFullyCalls skip ++ t ∧
      (∀ c ∈ t, c.isWire = true) ∧
      (s.haveResultInWire = false → t = []) ∧
      (skip = true → t.count Call.getResult = 0) ∧
      (skip = false →
        t.count Call.getResult ≤ t.count Call.moveToNextResult ∧
        t.count Call.moveToNextResult ≤ t.count Call.getResult + 1 ∧
        ((loadFully E C fuel s skip).2 ≠ Completion.raised →
          t.count Call.getResult = t.count Call.moveToNextResult)) := by
  have ht := loadFullyCurrent_trace E s skip
  obtain ⟨-, -, f3, -, -⟩ := loadFullyCurrent_frame E s skip
  simp only [loadFully]
  split
  · exact ⟨[], by simp [ht], by simp, by simp, by simp, by simp⟩
  · split
    · rename_i h1 h2
      obtain ⟨t, h, w, c1, c2⟩ := loadFullyLoop_ext E C skip fuel (loadFullyCurrent E s skip).1
      refine ⟨t, by rw [h, ht], w, ?_, c1, c2⟩
      intro hw
      rw [f3, hw] at h2
      cases h2
    · exact ⟨[], by simp [ht], by simp, by simp, by simp, by simp⟩

/-- The calls since `s` when the log of `s'` extends that of `s` by `t`. -/
theorem callsSince_eq (s s' : Results σ κ) (t : List Call) (h : s'.trace = s.trace ++ t) :
    s.callsSince s' = t := by
  simp [Results.callsSince, h]

/-- A sequence of events leaves the current RowSet alone. -/
theorem feedAll_resultSet (E : Env σ) (C : CmdOps κ) (evs : List Event) (s : Results σ κ) :
    (feedAll E C s evs).resultSet = s.resultSet := by
  induction evs generalizing s with
  | nil => rfl
  | cons e es ih =>
    have h := ih (feed E C s e)
    rw [(feed_frame E C s e).2.2.1] at h
    simpa [feedAll] using h

/-- The log after the streaming step of `getMoreResults`. -/
theorem getMoreResultsCurrent_trace (E : Env σ) (s : Results σ κ) (current : Int) :
    (getMoreResultsCurrent E s current).1.trace = s.trace ++ s.streamingCalls current := by
  simp only [getMoreResultsCurrent, Results.streamingCalls]
  cases hf : (s.fetchSize != 0) <;> cases hr : s.resultSet <;>
    by_cases hc : current = CLOSE_CURRENT_RESULT <;>
    simp [Results.callClose, Results.callFetchRemaining, hr, hc]

/-- The wire step of `getMoreResults` logs wire calls only, none when nothing is on the
wire, and leaves the current RowSet alone. -/
theorem getMoreResultsWire_ext (E : Env σ) (C : CmdOps κ) (s : Results σ κ) :
    (getMoreResultsWire E C s).1.resultSet = s.resultSet ∧
    ∃ t, (getMoreResultsWire E C s).1.trace = s.trace ++ t ∧
      (∀ c ∈ t, c.isWire = true) ∧ (s.haveResultInWire = false → t = []) := by
  have hrs : ∀ (t : Results σ κ) (c : Call) (r : Reply σ),
      (t.protocolCall E C c r).1.resultSet = t.resultSet := by
    intro t c r
    unfold Results.protocolCall
    exact feedAll_resultSet E C r.events _
  obtain ⟨tm, hm, pm⟩ := protocolCall_ext E C s Call.moveToNextResult
    (E.moveToNextResult s.protocol)
  obtain ⟨tg, hg, pg⟩ := protocolCall_ext E C
    (s.protocolCall E C Call.moveToNextResult (E.moveToNextResult s.protocol)).1 Call.getResult
    (E.getResult (s.protocolCall E C Call.moveToNextResult
      (E.moveToNextResult s.protocol)).1.protocol)
  have wm : ∀ c ∈ tm, c.isWire = true := fun c hc => (isIngestion_facts c (pm c hc)).2.2.2.1
  have wg : ∀ c ∈ tg, c.isWire = true := fun c hc => (isIngestion_facts c (pg c hc)).2.2.2.1
  rw [hm] at hg
  simp only [getMoreResultsWire]
  split
  · rename_i hw
    split
    · refine ⟨hrs _ _ _, Call.moveToNextResult :: tm, hm, ?_, ?_⟩
      · intro c hc
        simp at hc
        rcases hc with rfl | hc
        · rfl
        · exact wm c hc
      · intro h; rw [h] at hw; cases hw
    · refine ⟨by rw [hrs, hrs], Call.moveToNextResult :: tm ++ Call.getResult :: tg,
        by rw [hg]; simp, ?_, ?_⟩
      · intro c hc
        simp at hc
        rcases hc with rfl | hc | rfl | hc
        · rfl
        · exact wm c hc
        · rfl
        · exact wg c hc
      · intro h; rw [h] at hw; cases hw
  · exact ⟨rfl, [], by simp, by simp, fun _ => rfl⟩

/-- The tail of `getMoreResults` with an outcome: it logs the `close` of the current
RowSet when asked to, then at most one release of the streaming reservation, then the
release of the lock; it returns or raises. -/
theorem getMoreResultsTail_ext (E : Env σ) (C : CmdOps κ) (s : Results σ κ) (current : Int)
    (hc : s.cmdInformation.isSome = true) :
    ∃ rel, (getMoreResultsTail E C s current).1.trace
        = s.trace ++ s.closeCalls current ++ rel ++ [Call.unlock] ∧
      (rel = [] ∨ rel = [Call.removeActiveStreamingResult]) ∧
      ((getMoreResultsTail E C s current).2 = Completion.raised ∨
        ∃ b, (getMoreResultsTail E C s current).2 = Completion.returned b) := by
  obtain ⟨c, hc⟩ := Option.isSome_iff_exists.mp hc
  have hk : ∀ t : Results σ κ,
      (t.closeCurrentIfAsked E current).1.trace = t.trace ++ t.closeCalls current ∧
      (t.closeCurrentIfAsked E current).1.haveResultInWire = t.haveResultInWire := by
    intro t
    simp only [Results.closeCurrentIfAsked, Results.closeCalls]
    cases hr : t.resultSet <;> by_cases h : current = CLOSE_CURRENT_RESULT <;>
      simp [Results.callClose, hr, h]
  simp only [getMoreResultsTail, hc]
  have hk1 := hk { s with cmdInformation := some ⟨c.variant, (C.moreResults c.variant c.st).2⟩ }
  have hcc : Results.closeCalls
      { s with cmdInformation := some ⟨c.variant, (C.moreResults c.variant c.st).2⟩ } current
      = s.closeCalls current := rfl
  rw [hcc] at hk1
  generalize Results.closeCurrentIfAsked E
    { s with cmdInformation := some ⟨c.variant, (C.moreResults c.variant c.st).2⟩ } current
    = k at hk1 ⊢
  obtain ⟨hk2, -⟩ := hk1
  have hk3 : k.1.trace = s.trace ++ s.closeCalls current := hk2
  split
  · split
    · exact ⟨[], by simp [hk3], Or.inl rfl, Or.inl rfl⟩
    · refine ⟨[], ?_, Or.inl rfl, Or.inr ⟨_, rfl⟩⟩
      cases hq : k.1.executionResults <;> simp [hq, hk3]
  · split
    · exact ⟨[], by simp [hk3], Or.inl rfl, Or.inl rfl⟩
    · split
      · exact ⟨[Call.removeActiveStreamingResult],
          by simp [Results.removeActiveStreamingResult, hk3], Or.inr rfl, Or.inr ⟨_, rfl⟩⟩
      · exact ⟨[], by simp [hk3], Or.inl rfl, Or.inr ⟨_, rfl⟩⟩

/-- The wire step of `getMoreResults` keeps an outcome that exists. -/
theorem getMoreResultsWire_isSome (E : Env σ) (C : CmdOps κ) (s : Results σ κ)
    (h : s.cmdInformation.isSome = true) :
    (getMoreResultsWire E C s).1.cmdInformation.isSome = true := by
  obtain ⟨c, hc⟩ := Option.isSome_iff_exists.mp h
  have hv : s.variant? = some c.variant := by simp [Results.variant?, hc]
  have := getMoreResultsWire_variant E C s c.variant hv
  cases hq : (getMoreResultsWire E C s).1.cmdInformation with
  | none => simp [Results.variant?, hq] at this
  | some _ => rfl

/-- The shape of a call of `getMoreResults`.  The log gains the lock, the RowSet call of
the streaming step, the calls of the wire step `w` and a rest `tl`.  Either the streaming
or the wire step raised and `tl` is the unlock; or no outcome was found after the wire
step and `tl` is empty; or the tail ran: `tl` is the `close` of the current RowSet when
asked for, at most one release of the streaming reservation, and the unlock. -/
theorem getMoreResults_ext (E : Env σ) (C : CmdOps κ) (s : Results σ κ) (current : Int) :
    ∃ w tl, (getMoreResults E C s current).1.trace
        = s.trace ++ [Call.lock] ++ s.streamingCalls current ++ w ++ tl ∧
      (∀ c ∈ w, c.isWire = true) ∧ (s.haveResultInWire = false → w = []) ∧
      (((getMoreResults E C s current).2 = Completion.raised ∧ tl = [Call.unlock]) ∨
       ((getMoreResults E C s current).2 = Completion.nullCmdInformation ∧ tl = [] ∧
          (getMoreResultsCurrent E (s.log Call.lock) current).2 = false) ∨
       (((getMoreResults E C s current).2 = Completion.raised ∨
          ∃ b, (getMoreResults E C s current).2 = Completion.returned b) ∧
        ∃ rel, tl = s.closeCalls current ++ rel ++ [Call.unlock] ∧
          (rel = [] ∨ rel = [Call.removeActiveStreamingResult]))) := by
  have ht := getMoreResultsCurrent_trace E (s.log Call.lock) current
  have hsc : (s.log Call.lock).streamingCalls current = s.streamingCalls current := rfl
  rw [hsc, log_trace] at ht
  obtain ⟨-, -, f3, f4, -, -⟩ := getMoreResultsCurrent_frame E (s.log Call.lock) current
  obtain ⟨hwr, w, hw, pw, hw0⟩ := getMoreResultsWire_ext E C
    (getMoreResultsCurrent E (s.log Call.lock) current).1
  rw [ht] at hw
  have hw0' : s.haveResultInWire = false → w = [] := fun h => hw0 (by rw [f3]; exact h)
  simp only [getMoreResults]
  split
  · exact ⟨[], [Call.unlock], by simp [ht], by simp, fun _ => rfl, Or.inl ⟨rfl, rfl⟩⟩
  · rename_i ha
    split
    · exact ⟨w, [Call.unlock], by simp [hw], pw, hw0', Or.inl ⟨rfl, rfl⟩⟩
    · cases hc : (getMoreResultsWire E C
          (getMoreResultsCurrent E (s.log Call.lock) current).1).1.cmdInformation with
      | none =>
        refine ⟨w, [], ?_, pw, hw0', Or.inr (Or.inl ⟨?_, rfl, by simpa using ha⟩)⟩
        · simp [getMoreResultsTail, hc, hw]
        · simp [getMoreResultsTail, hc]
      | some c =>
        obtain ⟨rel, h1, h2, h3⟩ := getMoreResultsTail_ext E C
          (getMoreResultsWire E C (getMoreResultsCurrent E (s.log Call.lock) current).1).1
          current (by simp [hc])
        have hcc : Results.closeCalls (getMoreResultsWire E C
            (getMoreResultsCurrent E (s.log Call.lock) current).1).1 current
            = s.closeCalls current := by
          simp only [Results.closeCalls, hwr, f4, log_resultSet]
        rw [hcc, hw] at h1
        exact ⟨w, s.closeCalls current ++ rel ++ [Call.unlock], by rw [h1]; simp, pw, hw0',
          Or.inr (Or.inr ⟨h3, rel, rfl, h2⟩)⟩

/-- The calls of the streaming step and of the tail of `getMoreResults` are RowSet
calls, and no lock calls. -/
theorem rowSetCalls_facts (s : Results σ κ) (current : Int) :
    (∀ c ∈ s.streamingCalls current, c.isRowSet = true ∧ c.isLock = false) ∧
    (∀ c ∈ s.closeCalls current, c.isRowSet = true ∧ c.isLock = false) := by
  refine ⟨?_, ?_⟩ <;> intro c hc <;>
    simp only [Results.streamingCalls, Results.closeCalls] at hc
  · cases hr : s.resultSet <;> split at hc <;> try split at hc
    all_goals simp [hr] at hc
    all_goals subst hc; exact ⟨rfl, rfl⟩
  · cases hr : s.resultSet <;> split at hc
    all_goals simp [hr] at hc
    all_goals subst hc; exact ⟨rfl, rfl⟩

/-- Filtering the RowSet calls out of a list that holds none. -/
theorem filter_isRowSet_nil (t : List Call) (h : ∀ c ∈ t, c.isRowSet = false) :
    t.filter Call.isRowSet = [] := by
  rw [List.filter_eq_nil_iff]
  intro c hc
  simp [h c hc]

/-- Filtering the RowSet calls out of a list that holds nothing else. -/
theorem filter_isRowSet_all (t : List Call) (h : ∀ c ∈ t, c.isRowSet = true) :
    t.filter Call.isRowSet = t := by
  rw [List.filter_eq_self]
  exact h

/-- The RowSet calls of one `getMoreResults`: the call of the streaming step, followed,
when the tail is reached, by the `close` of the tail; the tail is reached on every call
that returns. -/
theorem getMoreResults_rowSetCalls (E : Env σ) (C : CmdOps κ) (s : Results σ κ)
    (current : Int) :
    (getMoreResultsRowSetCalls E C s current = s.streamingCalls current ∨
      getMoreResultsRowSetCalls E C s current
        = s.streamingCalls current ++ s.closeCalls current) ∧
    (∀ b, (getMoreResults E C s current).2 = Completion.returned b →
      getMoreResultsRowSetCalls E C s current
        = s.streamingCalls current ++ s.closeCalls current) := by
  obtain ⟨w, tl, h, pw, -, alt⟩ := getMoreResults_ext E C s current
  obtain ⟨r1, r2⟩ := rowSetCalls_facts s current
  have hw : w.filter Call.isRowSet = [] :=
    filter_isRowSet_nil w (fun c hc => (isWire_facts c (pw c hc)).1)
  have h1 : (s.streamingCalls current).filter Call.isRowSet = s.streamingCalls current :=
    filter_isRowSet_all _ (fun c hc => (r1 c hc).1)
  have h2 : (s.closeCalls current).filter Call.isRowSet = s.closeCalls current :=
    filter_isRowSet_all _ (fun c hc => (r2 c hc).1)
  have hcs : s.callsSince (getMoreResults E C s current).1
      = [Call.lock] ++ s.streamingCalls current ++ w ++ tl :=
    callsSince_eq s _ _ (by rw [h]; simp)
  have hf : getMoreResultsRowSetCalls E C s current
      = s.streamingCalls current ++ tl.filter Call.isRowSet := by
    unfold getMoreResultsRowSetCalls
    rw [hcs]
    simp [List.filter_append, hw, h1, Call.isRowSet]
  rcases alt with ⟨hr, rfl⟩ | ⟨hr, rfl, -⟩ | ⟨hr, rel, rfl, hrel⟩
  · refine ⟨Or.inl (by rw [hf]; simp [Call.isRowSet]), ?_⟩
    intro b hb
    rw [hr] at hb
    cases hb
  · refine ⟨Or.inl (by rw [hf]; simp), ?_⟩
    intro b hb
    rw [hr] at hb
    cases hb
  · have : (s.closeCalls current ++ rel ++ [Call.unlock]).filter Call.isRowSet
        = s.closeCalls current := by
      rcases hrel with rfl | rfl <;> simp [List.filter_append, h2, Call.isRowSet]
    rw [this] at hf
    exact ⟨Or.inr hf, fun _ _ => hf⟩

/-- When the outcome reports no further sub-result, the tail of `getMoreResults` raises
exactly when it is asked to close the current RowSet and that close raises. -/
theorem getMoreResultsTail_raised (E : Env σ) (C : CmdOps κ) (s : Results σ κ)
    (c : CmdInformation κ) (hc : s.cmdInformation = some c)
    (hm : (C.moreResults c.variant c.st).1 = false) (current : Int)
    (rs : SelectResultSet) (hrs : s.resultSet = some rs) :
    ((getMoreResultsTail E C s current).2 = Completion.raised ↔
      current = CLOSE_CURRENT_RESULT ∧ (E.rsClose s.protocol rs).2 = true) := by
  by_cases hcur : current = CLOSE_CURRENT_RESULT <;>
    cases h1 : (E.rsClose s.protocol rs).2 <;>
    simp [getMoreResultsTail, Results.closeCurrentIfAsked, Results.callClose, hc, hm, hrs,
      hcur, h1]

/-- The streaming step of `getMoreResults` on a current RowSet: whether it raises, and
the connection it leaves. -/
theorem getMoreResultsCurrent_some (E : Env σ) (s : Results σ κ) (current : Int)
    (rs : SelectResultSet) (hrs : s.resultSet = some rs) :
    ((getMoreResultsCurrent E s current).2 = true ↔
      s.fetchSize ≠ 0 ∧
        ((current = CLOSE_CURRENT_RESULT ∧ (E.rsClose s.protocol rs).2 = true) ∨
         (current ≠ CLOSE_CURRENT_RESULT ∧ (E.rsFetchRemaining s.protocol rs).2 = true))) ∧
    (s.fetchSize = 0 → (getMoreResultsCurrent E s current).1.protocol = s.protocol) ∧
    (s.fetchSize ≠ 0 → current = CLOSE_CURRENT_RESULT →
      (getMoreResultsCurrent E s current).1.protocol = (E.rsClose s.protocol rs).1) := by
  by_cases hf : s.fetchSize = 0 <;> by_cases hcur : current = CLOSE_CURRENT_RESULT <;>
    simp [getMoreResultsCurrent, Results.callClose, Results.callFetchRemaining, hrs, hf, hcur]

/-- With an outcome that reports no further sub-result and nothing on the wire,
`getMoreResults` on a current RowSet raises exactly when one of the RowSet calls it makes
raises: asked to close, the close of the streaming step (made only when streaming) or the
close of the tail; not asked to close, the `fetchRemaining` of the streaming step. -/
theorem getMoreResults_raised_iff (E : Env σ) (C : CmdOps κ) (s : Results σ κ)
    (c : CmdInformation κ) (hc : s.cmdInformation = some c)
    (hw : s.haveResultInWire = false)
    (hm : (C.moreResults c.variant c.st).1 = false) (current : Int)
    (rs : SelectResultSet) (hrs : s.resultSet = some rs) :
      ((getMoreResults E C s current).2 = Completion.raised ↔
        (current = CLOSE_CURRENT_RESULT ∧
          ((E.rsClose s.protocol rs).2 = true ∨
            (s.fetchSize ≠ 0 ∧ (E.rsClose (E.rsClose s.protocol rs).1 rs).2 = true))) ∨
        (current ≠ CLOSE_CURRENT_RESULT ∧ s.fetchSize ≠ 0 ∧
          (E.rsFetchRemaining s.protocol rs).2 = true)) := by
  obtain ⟨f1, -, f3, f4, f5, -⟩ := getMoreResultsCurrent_frame E (s.log Call.lock) current
  have hw1 : (getMoreResultsCurrent E (s.log Call.lock) current).1.haveResultInWire = false := by
    rw [f3]; simpa [Results.log] using hw
  have hc1 : (getMoreResultsCurrent E (s.log Call.lock) current).1.cmdInformation = some c := by
    rw [f1]; simpa [Results.log] using hc
  have hr1 : (getMoreResultsCurrent E (s.log Call.lock) current).1.resultSet = some rs := by
    rw [f4]; simpa [Results.log] using hrs
  have hwire := getMoreResultsWire_idle E C _ hw1
  have ht := getMoreResultsTail_raised E C _ c hc1 hm current rs hr1
  obtain ⟨a1, a2, a3⟩ := getMoreResultsCurrent_some E (s.log Call.lock) current rs
    (by simpa [Results.log] using hrs)
  simp only [log_fetchSize, log_protocol] at a1 a2 a3
  cases ha : (getMoreResultsCurrent E (s.log Call.lock) current).2 with
  | true =>
    have hr : (getMoreResults E C s current).2 = Completion.raised := by
      simp [getMoreResults, ha]
    have := a1.mp ha
    simp only [hr, true_iff]
    tauto
  | false =>
    have hr : getMoreResults E C s current
        = getMoreResultsTail E C (getMoreResultsCurrent E (s.log Call.lock) current).1 current := by
      simp [getMoreResults, ha, hwire]
    rw [hr, ht]
    have hna : ¬ (s.fetchSize ≠ 0 ∧
        ((current = CLOSE_CURRENT_RESULT ∧ (E.rsClose s.protocol rs).2 = true) ∨
         (current ≠ CLOSE_CURRENT_RESULT ∧ (E.rsFetchRemaining s.protocol rs).2 = true))) := by
      intro h
      have h2 := a1.mpr h
      rw [ha] at h2
      cases h2
    by_cases hf : s.fetchSize = 0
    · rw [a2 hf]
      constructor
      · rintro ⟨h1, h2⟩; exact Or.inl ⟨h1, Or.inl h2⟩
      · rintro (⟨h1, h2 | ⟨h2, -⟩⟩ | ⟨-, h2, -⟩)
        · exact ⟨h1, h2⟩
        · exact absurd hf h2
        · exact absurd hf h2
    · constructor
      · rintro ⟨h1, h2⟩
        rw [a3 hf h1] at h2
        exact Or.inl ⟨h1, Or.inr ⟨hf, h2⟩⟩
      · rintro (⟨h1, h2 | ⟨-, h2⟩⟩ | ⟨h1, -, h2⟩)
        · exact absurd ⟨hf, Or.inl ⟨h1, h2⟩⟩ hna
        · exact ⟨h1, by rw [a3 hf h1]; exact h2⟩
        · exact absurd ⟨hf, Or.inr ⟨h1, h2⟩⟩ hna

end Frame

section Claims

variable {σ κ : Type}

/-- C7: `commandEnd` returns true exactly when an outcome exists.  Without outcome it
clears the current RowSet and leaves the queue.  With an outcome: when the queue is
non-empty and the outcome's current entry is not an update count, the front of the queue
becomes the current RowSet and the queue its tail; otherwise the current RowSet is
cleared and the queue unchanged; in both cases the outcome receives `setRewrite` with
the `rewritten` flag of the instance. -/
theorem commandEnd_spec (C : CmdOps κ) (s : Results σ κ) :
    ((commandEnd C s).2 = true ↔ s.cmdInformation.isSome = true) ∧
    (s.cmdInformation = none →
      (commandEnd C s).1.resultSet = none ∧
      (commandEnd C s).1.executionResults = s.executionResults) ∧
    (∀ c, s.cmdInformation = some c →
      (∀ rs rest, s.executionResults = rs :: rest →
        C.isCurrentUpdateCount c.variant c.st = false →
          (commandEnd C s).1.resultSet = some rs ∧ (commandEnd C s).1.executionResults = rest) ∧
      (s.executionResults = [] ∨ C.isCurrentUpdateCount c.variant c.st = true →
          (commandEnd C s).1.resultSet = none ∧
          (commandEnd C s).1.executionResults = s.executionResults) ∧
      (commandEnd C s).1.cmdInformation
          = some ⟨c.variant, C.setRewrite c.variant c.st s.rewritten⟩ ∧
      (commandEnd C s).1.trace = s.trace ++ [Call.setRewrite s.rewritten]) := by
  refine ⟨?_, ?_, ?_⟩
  · cases h : s.cmdInformation <;> simp [commandEnd, h]
  · intro h
    simp [commandEnd, h]
  · intro c h
    refine ⟨?_, ?_, ?_, ?_⟩
    · intro rs rest hq hu
      simp [commandEnd, h, hq, hu]
    · rintro (hq | hu)
      · simp [commandEnd, h, hq]
      · cases hq : s.executionResults <;> simp [commandEnd, h, hq, hu]
    · cases hq : s.executionResults
      · simp [commandEnd, h, hq]
      · cases hu : C.isCurrentUpdateCount c.variant c.st <;> simp [commandEnd, h, hq, hu]
    · cases hq : s.executionResults
      · simp [commandEnd, h, hq]
      · cases hu : C.isCurrentUpdateCount c.variant c.st <;> simp [commandEnd, h, hq, hu]

/-- Witness of C7: without outcome the current RowSet is cleared; in scenario B the
queued RowSet becomes current; after a lone update count nothing becomes current. -/
theorem commandEnd_spec_witness :
    ((commandEnd specCmd (fresh idle 0 false : Results Wire OutcomeState)).1.resultSet = none ∧
      (commandEnd specCmd (fresh idle 0 false : Results Wire OutcomeState)).1.executionResults
        = []) ∧
    (commandEnd specCmd scenarioB).2 = true ∧
    ((commandEnd specCmd scenarioB).1.resultSet = some ⟨7, false⟩ ∧
      (commandEnd specCmd scenarioB).1.executionResults = []) ∧
    ((commandEnd specCmd singleStat).1.resultSet = none ∧
      (commandEnd specCmd singleStat).1.executionResults = []) :=
  ⟨(commandEnd_spec specCmd (fresh idle 0 false)).2.1 rfl,
   (commandEnd_spec specCmd scenarioB).1.2 rfl,
   ((commandEnd_spec specCmd scenarioB).2.2 ⟨Variant.Single, ⟨[⟨-1, 0⟩], 0, false⟩⟩ rfl).1
      ⟨7, false⟩ [] rfl rfl,
   ((commandEnd_spec specCmd singleStat).2.2 ⟨Variant.Single, ⟨[⟨1, 10⟩], 0, false⟩⟩ rfl).2.1
      (Or.inl rfl)⟩

/-- C3, as stated, fails.  For a callable RowSet: recorded on a fresh instance and
followed by `commandEnd`, the call returns false and the RowSet is not the current one.
And on `closedNoOutcome` (no outcome, empty queue, a result on the wire, a NULL
`statement`): `addResultSet` of the non-callable RowSet 7 with no further result
available dereferences `statement` and ends there, so that nothing is recorded and the
`commandEnd` that follows returns false with no current RowSet. -/
theorem roundtrip_counterexample :
    ¬ ((commandEnd specCmd
          (addResultSet wireEnv specCmd (fresh idle 0 false) ⟨3, true⟩ false)).2 = true ∧
       (commandEnd specCmd
          (addResultSet wireEnv specCmd (fresh idle 0 false) ⟨3, true⟩ false)).1.resultSet
        = some ⟨3, true⟩ ∧
       (commandEnd specCmd
          (addResultSet wireEnv specCmd (fresh idle 0 false) ⟨3, true⟩ false)).1.executionResults
        = []) ∧
    (closedNoOutcome.cmdInformation.isSome = false ∧ closedNoOutcome.executionResults = [] ∧
      (addResultSet wireEnv specCmd closedNoOutcome ⟨7, false⟩ false).crashed = true ∧
      (commandEnd specCmd
          (addResultSet wireEnv specCmd closedNoOutcome ⟨7, false⟩ false)).2 = false ∧
      (commandEnd specCmd
          (addResultSet wireEnv specCmd closedNoOutcome ⟨7, false⟩ false)).1.resultSet
        = none) := by
  decide

/-- C3, amended: on a fresh instance (no outcome, empty queue), `addResultSet` of a
non-callable RowSet that dereferences no null pointer (no release is due, or `statement`
and its protocol are there), followed by `commandEnd`, returns true and leaves that
RowSet as the current one with the queue empty, provided the new outcome reports its
current entry as a result set; and after a non-empty sequence of `addStats` /
`addStatsError` calls `commandEnd` leaves no current RowSet. -/
theorem roundtrip (E : Env σ) (C : CmdOps κ) (hC : C.MarksResultSet) (s : Results σ κ)
    (hfresh : s.cmdInformation = none) (hqueue : s.executionResults = []) :
    (∀ (rs : SelectResultSet) (moreAvailable : Bool), rs.callableResult = false →
      s.nullDereference moreAvailable = false →
      (commandEnd C (addResultSet E C s rs moreAvailable)).2 = true ∧
      (commandEnd C (addResultSet E C s rs moreAvailable)).1.resultSet = some rs ∧
      (commandEnd C (addResultSet E C s rs moreAvailable)).1.executionResults = []) ∧
    (∀ evs : List Event, evs ≠ [] → (∀ e ∈ evs, e.isStat = true) →
      (commandEnd C (feedAll E C s evs)).1.resultSet = none) := by
  obtain ⟨hS, hB, hM⟩ := hC
  refine ⟨?_, ?_⟩
  · intro rs more hrs hn
    simp only [addResultSet, wireBookkeeping_eq, hn, hrs, Bool.false_eq_true, if_false]
    cases hb : s.batch <;> cases more <;>
      simp [commandEnd, hfresh, hqueue, hb, Results.callAddResultSetStat, hS, hB, hM]
  · intro evs _ hev
    exact commandEnd_empty_queue C _ (by rw [feedAll_stat_executionResults E C evs s hev, hqueue])

/-- Witness of C3 (amended): scenario B, and a success followed by an error. -/
theorem roundtrip_witness :
    ((commandEnd specCmd scenarioB).2 = true ∧
      (commandEnd specCmd scenarioB).1.resultSet = some ⟨7, false⟩ ∧
      (commandEnd specCmd scenarioB).1.executionResults = []) ∧
    (commandEnd specCmd (feedAll wireEnv specCmd (fresh idle 0 false)
        [Event.stats 1 10 true, Event.statsError false])).1.resultSet = none :=
  ⟨(roundtrip wireEnv specCmd ⟨fun _ => rfl, fun _ _ => rfl, fun _ _ => rfl⟩ (fresh idle 0 false) rfl rfl).1
      ⟨7, false⟩ false rfl rfl,
   (roundtrip wireEnv specCmd ⟨fun _ => rfl, fun _ _ => rfl, fun _ _ => rfl⟩ (fresh idle 0 false) rfl rfl).2
      [Event.stats 1 10 true, Event.statsError false] (by decide) (by decide)⟩

/-- C8, the divergence evaluated: in `staleCurrent` (not a batch, queue empty, RowSet 8
current, outcome reporting a further sub-result) `getMoreResults` returns true although
no RowSet is popped: RowSet 8 stays current, and with `CLOSE_CURRENT_RESULT` it has just
been closed. -/
theorem advance_stale_current :
    staleCurrent.batch = false ∧ staleCurrent.executionResults = [] ∧
    staleCurrent.resultSet = some ⟨8, false⟩ ∧
    (getMoreResults wireEnv specCmd staleCurrent 2).2 = Completion.returned true ∧
    (getMoreResults wireEnv specCmd staleCurrent 2).1.resultSet = some ⟨8, false⟩ ∧
    (getMoreResults wireEnv specCmd staleCurrent 2).1.executionResults = [] ∧
    (getMoreResults wireEnv specCmd staleCurrent CLOSE_CURRENT_RESULT).2
      = Completion.returned true ∧
    (getMoreResults wireEnv specCmd staleCurrent CLOSE_CURRENT_RESULT).1.resultSet
      = some ⟨8, false⟩ ∧
    (getMoreResults wireEnv specCmd staleCurrent CLOSE_CURRENT_RESULT).1.trace
      = staleCurrent.trace ++ [Call.lock, Call.rsClose ⟨8, false⟩, Call.unlock] := by
  decide

/-- C9, as stated, fails: in `raisingCurrent` an outcome exists, nothing is on the wire,
the queue is empty and the outcome reports no further sub-result, yet `getMoreResults`
does not return false: closing the streaming current RowSet raises. -/
theorem advance_idempotent_counterexample :
    raisingCurrent.cmdInformation.isSome = true ∧
    raisingCurrent.haveResultInWire = false ∧
    raisingCurrent.executionResults = [] ∧
    (raisingCurrent.cmdInformation.map
      (fun c => (specCmd.moreResults c.variant c.st).1)) = some false ∧
    (getMoreResults wireEnv specCmd raisingCurrent CLOSE_CURRENT_RESULT).2
      ≠ Completion.returned false := by
  decide

/-- C9, amended: in a state with an outcome, nothing on the wire, an empty queue and an
outcome that reports no further sub-result, `getMoreResults` returns false or raises.
Without current RowSet it returns false.  With a current RowSet it raises exactly when a
RowSet call that it makes raises: asked to close the current RowSet
(`CLOSE_CURRENT_RESULT`), the `close` of line 345 (made only when streaming) or, that one
having returned, the `close` of line 375; not asked to close, the `fetchRemaining` of
line 348 (made only when streaming); otherwise it returns false.  After a first call that
returned, a second call returns false, leaves `haveResultInWire`, `fetchSize`, the
current RowSet and the connection unchanged, and logs nothing but taking and releasing
the lock. -/
theorem advance_idempotent (E : Env σ) (C : CmdOps κ) (s : Results σ κ)
    (c : CmdInformation κ) (hc : s.cmdInformation = some c)
    (hw : s.haveResultInWire = false) (hq : s.executionResults = [])
    (hm : (C.moreResults c.variant c.st).1 = false) (current current2 : Int) :
    ((getMoreResults E C s current).2 = Completion.returned false ∨
      (getMoreResults E C s current).2 = Completion.raised) ∧
    (s.resultSet = none → (getMoreResults E C s current).2 = Completion.returned false) ∧
    (∀ rs, s.resultSet = some rs →
      ((getMoreResults E C s current).2 = Completion.raised ↔
        (current = CLOSE_CURRENT_RESULT ∧
          ((E.rsClose s.protocol rs).2 = true ∨
            (s.fetchSize ≠ 0 ∧ (E.rsClose (E.rsClose s.protocol rs).1 rs).2 = true))) ∨
        (current ≠ CLOSE_CURRENT_RESULT ∧ s.fetchSize ≠ 0 ∧
          (E.rsFetchRemaining s.protocol rs).2 = true))) ∧
    ((getMoreResults E C s current).2 = Completion.returned false →
      (getMoreResults E C (getMoreResults E C s current).1 current2).2
        = Completion.returned false ∧
      (getMoreResults E C (getMoreResults E C s current).1 current2).1.haveResultInWire
        = (getMoreResults E C s current).1.haveResultInWire ∧
      (getMoreResults E C (getMoreResults E C s current).1 current2).1.fetchSize
        = (getMoreResults E C s current).1.fetchSize ∧
      (getMoreResults E C (getMoreResults E C s current).1 current2).1.resultSet
        = (getMoreResults E C s current).1.resultSet ∧
      (getMoreResults E C (getMoreResults E C s current).1 current2).1.protocol
        = (getMoreResults E C s current).1.protocol ∧
      (getMoreResults E C (getMoreResults E C s current).1 current2).1.trace
        = (getMoreResults E C s current).1.trace ++ [Call.lock, Call.unlock]) := by
  have hraise := fun rs hrs => getMoreResults_raised_iff E C s c hc hw hm current rs hrs
  obtain ⟨f1, -, f3, f4, f5, -⟩ := getMoreResultsCurrent_frame E (s.log Call.lock) current
  have hw1 : (getMoreResultsCurrent E (s.log Call.lock) current).1.haveResultInWire = false := by
    rw [f3]; simpa [Results.log] using hw
  have hc1 : (getMoreResultsCurrent E (s.log Call.lock) current).1.cmdInformation = some c := by
    rw [f1]; simpa [Results.log] using hc
  have hq1 : (getMoreResultsCurrent E (s.log Call.lock) current).1.executionResults = [] := by
    rw [f5]; simpa [Results.log] using hq
  obtain ⟨t1, t2, t3⟩ := getMoreResultsTail_exhausted E C _ c hc1 hw1 hq1 hm current
  have hwire := getMoreResultsWire_idle E C _ hw1
  cases ha : (getMoreResultsCurrent E (s.log Call.lock) current).2 with
  | true =>
    have hr : (getMoreResults E C s current).2 = Completion.raised := by
      simp [getMoreResults, ha]
    refine ⟨Or.inr hr, ?_, hraise, ?_⟩
    · intro hnone
      have := getMoreResultsCurrent_none E (s.log Call.lock) current
        (by simpa [Results.log] using hnone)
      rw [this] at ha
      simp at ha
    · intro h
      rw [hr] at h
      cases h
  | false =>
    have hr : getMoreResults E C s current
        = getMoreResultsTail E C (getMoreResultsCurrent E (s.log Call.lock) current).1 current := by
      simp [getMoreResults, ha, hwire]
    refine ⟨?_, ?_, hraise, ?_⟩
    · rw [hr]; exact t1
    · intro hnone
      rw [hr]
      exact t2 (by rw [f4]; simpa [Results.log] using hnone)
    · intro h
      rw [hr] at h ⊢
      obtain ⟨g1, g2, g3, -, g5⟩ := t3 h
      obtain ⟨q1, q2, q3, q4, -, q6, q7⟩ :=
        getMoreResults_quiescent E C _ g5 g3 g2 g1 current2
      exact ⟨q1, q2, q3, q4, q6, q7⟩

/-- Witness of C9 (amended): on `streamingSingle` (streaming, RowSet 7 current, no RowSet
call raises) an advance asked to close the current RowSet returns false, and so does a
second one, which only takes and releases the lock; on `raisingCurrent`, whose RowSet
calls raise, the advance raises. -/
theorem advance_idempotent_witness :
    streamingSingle.resultSet = some ⟨7, false⟩ ∧
    (getMoreResults wireEnv specCmd streamingSingle 1).2 = Completion.returned false ∧
    (getMoreResults wireEnv specCmd (getMoreResults wireEnv specCmd streamingSingle 1).1 1).2
      = Completion.returned false ∧
    (getMoreResults wireEnv specCmd
        (getMoreResults wireEnv specCmd streamingSingle 1).1 1).1.trace
      = (getMoreResults wireEnv specCmd streamingSingle 1).1.trace
          ++ [Call.lock, Call.unlock] ∧
    (getMoreResults wireEnv specCmd raisingCurrent 1).2 = Completion.raised :=
  ⟨rfl,
   (advance_idempotent wireEnv specCmd streamingSingle ⟨Variant.Single, ⟨[⟨-1, 0⟩], 0, false⟩⟩
      rfl rfl rfl rfl 1 1).1.resolve_right
      (fun h => absurd
        (((advance_idempotent wireEnv specCmd streamingSingle
            ⟨Variant.Single, ⟨[⟨-1, 0⟩], 0, false⟩⟩ rfl rfl rfl rfl 1 1).2.2.1
          ⟨7, false⟩ rfl).mp h) (by decide)),
   ((advance_idempotent wireEnv specCmd streamingSingle ⟨Variant.Single, ⟨[⟨-1, 0⟩], 0, false⟩⟩
      rfl rfl rfl rfl 1 1).2.2.2 rfl).1,
   ((advance_idempotent wireEnv specCmd streamingSingle ⟨Variant.Single, ⟨[⟨-1, 0⟩], 0, false⟩⟩
      rfl rfl rfl rfl 1 1).2.2.2 rfl).2.2.2.2.2,
   ((advance_idempotent wireEnv specCmd raisingCurrent ⟨Variant.Single, ⟨[⟨-1, 0⟩], 0, false⟩⟩
      rfl rfl rfl rfl 1 1).2.2.1 ⟨7, false⟩ rfl).mpr (by decide)⟩

/-- C10: whenever `loadFully` returns normally (for either value of `skip`, every state,
every behaviour of the connection and every bound on the loop), it leaves
`fetchSize == 0` and `haveResultInWire == false`, and `isFullyLoaded` called next
returns true. -/
theorem loadFully_then_isFullyLoaded (E : Env σ) (C : CmdOps κ) (fuel : Nat)
    (s : Results σ κ) (skip : Bool)
    (h : (loadFully E C fuel s skip).2 = Completion.returned ()) :
    (loadFully E C fuel s skip).1.fetchSize = 0 ∧
    (loadFully E C fuel s skip).1.haveResultInWire = false ∧
    isFullyLoaded E (loadFully E C fuel s skip).1 = true := by
  have key : (loadFully E C fuel s skip).1.fetchSize = 0 ∧
      (loadFully E C fuel s skip).1.haveResultInWire = false := by
    obtain ⟨-, f2, -, -, -⟩ := loadFullyCurrent_frame E s skip
    simp only [loadFully] at h ⊢
    split at h
    · cases h
    · split at h
      · rename_i h1 h2
        simp only [h1, h2, if_true, if_false]
        exact ⟨(loadFullyLoop_frame E C skip fuel _).1.trans f2,
          (loadFullyLoop_frame E C skip fuel _).2 h⟩
      · rename_i h1 h2
        simp only [h1, h2, if_false]
        exact ⟨f2, by simpa using h2⟩
  exact ⟨key.1, key.2, by simp [isFullyLoaded, key.1]⟩

/-- Witness of C10: a streaming instance with two sub-results on the wire is drained
with `skip` true and with `skip` false. -/
theorem loadFully_then_isFullyLoaded_witness :
    (loadFully wireEnv specCmd 5 streaming true).2 = Completion.returned () ∧
    ((loadFully wireEnv specCmd 5 streaming true).1.fetchSize = 0 ∧
    (loadFully wireEnv specCmd 5 streaming true).1.haveResultInWire = false ∧
    isFullyLoaded wireEnv (loadFully wireEnv specCmd 5 streaming true).1 = true) ∧
    ((loadFully wireEnv specCmd 5 streaming false).1.fetchSize = 0 ∧
    (loadFully wireEnv specCmd 5 streaming false).1.haveResultInWire = false ∧
    isFullyLoaded wireEnv (loadFully wireEnv specCmd 5 streaming false).1 = true) :=
  ⟨rfl, loadFully_then_isFullyLoaded wireEnv specCmd 5 streaming true rfl,
    loadFully_then_isFullyLoaded wireEnv specCmd 5 streaming false rfl⟩

/-- C11: `getGeneratedKeys` raises exactly when the auto-generated-keys mode of the
execution is not `RETURN_GENERATED_KEYS`, whatever the other fields are.  When the mode
was requested it returns: the empty RowSet without outcome, the batch generated keys of
the outcome for a batch, and otherwise the generated keys the outcome computes from the
SQL text. -/
theorem getGeneratedKeys_spec (C : CmdOps κ) (s : Results σ κ) :
    (getGeneratedKeys C s = Completion.raised ↔ s.autoGeneratedKeys ≠ RETURN_GENERATED_KEYS) ∧
    (s.autoGeneratedKeys = RETURN_GENERATED_KEYS →
      (s.cmdInformation = none →
        getGeneratedKeys C s = Completion.returned createEmptyResultSet) ∧
      (∀ c, s.cmdInformation = some c → s.batch = true →
        getGeneratedKeys C s = Completion.returned (C.getBatchGeneratedKeys c.variant c.st)) ∧
      (∀ c, s.cmdInformation = some c → s.batch = false →
        getGeneratedKeys C s
          = Completion.returned (C.getGeneratedKeys c.variant c.st s.sql))) := by
  refine ⟨?_, ?_⟩
  · by_cases h : s.autoGeneratedKeys = RETURN_GENERATED_KEYS
    · cases hc : s.cmdInformation <;> cases hb : s.batch <;>
        simp [getGeneratedKeys, h, hc, hb]
    · simp [getGeneratedKeys, h]
  · intro h
    refine ⟨?_, ?_, ?_⟩
    · intro hc
      simp [getGeneratedKeys, h, hc]
    · intro c hc hb
      simp [getGeneratedKeys, h, hc, hb]
    · intro c hc hb
      simp [getGeneratedKeys, h, hc, hb]

/-- Witness of C11: mode not requested on a fresh instance; mode requested without
outcome, on the batch of scenario A, and on the single query of scenario B. -/
theorem getGeneratedKeys_spec_witness :
    getGeneratedKeys specCmd (fresh idle 0 false : Results Wire OutcomeState)
      = Completion.raised ∧
    getGeneratedKeys specCmd
      { (fresh idle 0 false : Results Wire OutcomeState) with
        autoGeneratedKeys := RETURN_GENERATED_KEYS }
      = Completion.returned createEmptyResultSet ∧
    getGeneratedKeys specCmd scenarioA
      = Completion.returned (specCmd.getBatchGeneratedKeys Variant.Batch
          ⟨[⟨1, 10⟩, ⟨1, 11⟩, ⟨1, 12⟩], 0, false⟩) ∧
    getGeneratedKeys specCmd { scenarioB with autoGeneratedKeys := RETURN_GENERATED_KEYS }
      = Completion.returned (specCmd.getGeneratedKeys Variant.Single ⟨[⟨-1, 0⟩], 0, false⟩ "") :=
  ⟨(getGeneratedKeys_spec specCmd (fresh idle 0 false)).1.2 (by decide),
   ((getGeneratedKeys_spec specCmd _).2 rfl).1 rfl,
   ((getGeneratedKeys_spec specCmd scenarioA).2 rfl).2.1 _ rfl rfl,
   ((getGeneratedKeys_spec specCmd
      { scenarioB with autoGeneratedKeys := RETURN_GENERATED_KEYS }).2 rfl).2.2 _ rfl rfl⟩

/-- C12, as stated, fails in two ways.  After `close()` the statement is detached, so
tearing the instance down does not drain: `haveResultInWire` stays true, no call is made
on the connection, and the connection still reports further sub-results.  And with the
statement attached: on `clearedOnWire` an earlier `getMoreResults` has cleared
`haveResultInWire` (lines 379-382) while the connection still holds a sub-result; the
teardown runs `loadFully(true, protocol)`, which makes no call at all and returns, and
the connection still reports a further sub-result. -/
theorem teardown_counterexample :
    (streaming.haveResultInWire = true ∧
      (destroy wireEnv specCmd 5 (close streaming)).2 = Completion.returned () ∧
      (destroy wireEnv specCmd 5 (close streaming)).1.haveResultInWire = true ∧
      (destroy wireEnv specCmd 5 (close streaming)).1.trace = streaming.trace ∧
      wireEnv.hasMoreResults (destroy wireEnv specCmd 5 (close streaming)).1.protocol
        = true) ∧
    (clearedOnWire.protocolAttached = true ∧ clearedOnWire.haveResultInWire = false ∧
      clearedOnWire.fetchSize = 0 ∧ clearedOnWire.crashed = false ∧
      (destroy wireEnv specCmd 5 clearedOnWire).2 = Completion.returned () ∧
      (destroy wireEnv specCmd 5 clearedOnWire).1.trace = clearedOnWire.trace ∧
      wireEnv.hasMoreResults (destroy wireEnv specCmd 5 clearedOnWire).1.protocol = true) := by
  decide

/-- C12, amended: tearing down an instance whose statement is attached and has a
protocol runs `loadFully(true, protocol)`; when that returns normally `haveResultInWire`
is false and `fetchSize` is 0, and, if `haveResultInWire` was true at teardown, the
connection reports no further sub-result; if `haveResultInWire` was false and
`fetchSize` was 0 at teardown, the teardown changes nothing and makes no call, whatever
the connection still holds.  Without attached statement or protocol teardown does
nothing.  `abort` leaves the statement attached; `close` detaches it, so teardown after
`close` does nothing: `fetchSize` is 0 but `haveResultInWire` and the connection are as
they were. -/
theorem teardown_drains (E : Env σ) (C : CmdOps κ) (fuel : Nat) (s : Results σ κ) :
    (∀ st, s.statement = some st → st.hasProtocol = true →
      destroy E C fuel s = loadFully E C fuel s true ∧
      ((destroy E C fuel s).2 = Completion.returned () →
        (destroy E C fuel s).1.haveResultInWire = false ∧
        (destroy E C fuel s).1.fetchSize = 0 ∧
        (s.haveResultInWire = true →
          E.hasMoreResults (destroy E C fuel s).1.protocol = false)) ∧
      (s.haveResultInWire = false → s.fetchSize = 0 →
        destroy E C fuel s = (s, Completion.returned ()))) ∧
    (s.statement = none ∨ s.statement = some ⟨false⟩ →
      destroy E C fuel s = (s, Completion.returned ())) ∧
    (abort E s).1.statement = s.statement ∧
    (destroy E C fuel (close s) = (close s, Completion.returned ()) ∧
      (close s).fetchSize = 0 ∧ (close s).haveResultInWire = s.haveResultInWire ∧
      (close s).protocol = s.protocol ∧ (close s).trace = s.trace) := by
  refine ⟨?_, ?_, ?_, ?_⟩
  · intro st hst hp
    have hd : destroy E C fuel s = loadFully E C fuel s true := by
      simp [destroy, hst, hp]
    refine ⟨hd, ?_, ?_⟩
    · rw [hd]
      intro h
      have := loadFully_drained E C fuel s true h
      exact ⟨this.2.1, this.1, this.2.2⟩
    · intro hw hf
      rw [hd]
      simp [loadFully, loadFullyCurrent, hw, hf]
  · rintro (h | h) <;> simp [destroy, h]
  · simp only [abort]
    repeat' split
    all_goals simp_all [Results.callAbort]
  · simp [destroy, close]

/-- Witness of C12 (amended): the streaming instance is drained by teardown, and is left
alone by teardown after `close`; `clearedOnWire` is left as it is. -/
theorem teardown_drains_witness :
    destroy wireEnv specCmd 5 streaming = loadFully wireEnv specCmd 5 streaming true ∧
    ((destroy wireEnv specCmd 5 streaming).1.haveResultInWire = false ∧
     (destroy wireEnv specCmd 5 streaming).1.fetchSize = 0 ∧
     (streaming.haveResultInWire = true →
       wireEnv.hasMoreResults (destroy wireEnv specCmd 5 streaming).1.protocol = false)) ∧
    destroy wireEnv specCmd 5 (close streaming) = (close streaming, Completion.returned ()) ∧
    destroy wireEnv specCmd 5 clearedOnWire = (clearedOnWire, Completion.returned ()) :=
  ⟨((teardown_drains wireEnv specCmd 5 streaming).1 ⟨true⟩ rfl rfl).1,
   ((teardown_drains wireEnv specCmd 5 streaming).1 ⟨true⟩ rfl rfl).2.1 rfl,
   (teardown_drains wireEnv specCmd 5 (close streaming)).2.1 (Or.inl rfl),
   ((teardown_drains wireEnv specCmd 5 clearedOnWire).1 ⟨true⟩ rfl rfl).2.2 rfl rfl⟩

/-- C13, as stated, fails in two ways.  On `closedNoOutcome` (no outcome, not a batch, a
result on the wire, a NULL `statement`) `addStats(1, 10, false)` dereferences
`statement` for the release that is due and ends there: no Single outcome is created.
And on `scenarioB`, where an outcome exists, `addResultSet` of the callable RowSet 3
makes no append call at all: the log does not grow. -/
theorem single_short_circuit_counterexample :
    (closedNoOutcome.cmdInformation.isSome = false ∧ closedNoOutcome.batch = false ∧
      (addStats wireEnv specCmd closedNoOutcome 1 10 false).crashed = true ∧
      (addStats wireEnv specCmd closedNoOutcome 1 10 false).cmdInformation.isSome = false) ∧
    (scenarioB.cmdInformation.isSome = true ∧
      (feed wireEnv specCmd scenarioB (Event.resultSet ⟨3, true⟩ false)).crashed = false ∧
      (feed wireEnv specCmd scenarioB (Event.resultSet ⟨3, true⟩ false)).trace
        = scenarioB.trace) := by
  decide

/-- C13, amended.  On an instance without outcome, not a batch, with no further result
available, when no null pointer is dereferenced (no release is due, or `statement` and
its protocol are there): `addStats(u, id, false)` creates a Single outcome built from
`(id, u)`, `addStatsError` one built with update count `EXECUTE_FAILED`, and
`addResultSet` of a non-callable RowSet one built with update count `-1`.  For every
event that dereferences no null pointer: if it is not a callable RowSet the log gains no
append call in that case, and otherwise (the outcome existed, or is created as Batch or
Multiple) exactly one, the append call of the event; if it is a callable RowSet the log
gains no append call, whether or not an outcome exists. -/
theorem single_short_circuit (E : Env σ) (C : CmdOps κ) (s : Results σ κ) :
    (s.cmdInformation = none → s.batch = false → s.nullDereference false = false →
      (∀ updateCount insertId,
        (addStats E C s updateCount insertId false).cmdInformation
          = some ⟨Variant.Single, C.newSingle insertId updateCount s.autoIncrement⟩) ∧
      (addStatsError E C s false).cmdInformation
          = some ⟨Variant.Single, C.newSingle 0 EXECUTE_FAILED s.autoIncrement⟩ ∧
      (∀ rs, rs.callableResult = false →
        (addResultSet E C s rs false).cmdInformation
          = some ⟨Variant.Single, C.newSingle 0 (-1) s.autoIncrement⟩)) ∧
    (∀ e : Event, s.nullDereference e.more = false →
      (e.isCallable = false →
        (feed E C s e).trace.countP Call.isAppend =
          s.trace.countP Call.isAppend + (if s.shortCircuits e then 0 else 1) ∧
        (feed E C s e).trace =
          s.trace ++ (if s.haveResultInWire && !e.more && s.fetchSize == 0
                      then [Call.removeActiveStreamingResult] else [])
            ++ (if s.shortCircuits e then [] else [e.appendCall])) ∧
      (e.isCallable = true →
        (feed E C s e).trace.countP Call.isAppend = s.trace.countP Call.isAppend ∧
        (feed E C s e).trace =
          s.trace ++ (if s.haveResultInWire && !e.more && s.fetchSize == 0
                      then [Call.removeActiveStreamingResult] else []))) := by
  refine ⟨?_, ?_⟩
  · intro hc hb hn
    refine ⟨?_, ?_, ?_⟩
    · intro u i
      simp [addStats, wireBookkeeping_eq, hn, hc, hb]
    · simp [addStatsError, wireBookkeeping_eq, hn, hc, hb]
    · intro rs hrs
      simp [addResultSet, wireBookkeeping_eq, hn, hc, hb, hrs, RESULT_SET_VALUE]
  · intro e hn
    have hr : Call.isAppend Call.removeActiveStreamingResult = false := rfl
    refine ⟨?_, ?_⟩
    · intro he
      have ht := feed_trace E C s e he hn
      refine ⟨?_, ht⟩
      rw [ht]
      have ha : Call.isAppend e.appendCall = true := by cases e <;> rfl
      cases hs : s.shortCircuits e <;>
        cases hd : (s.haveResultInWire && !e.more && s.fetchSize == 0) <;>
        simp [List.countP_append, List.countP_cons, ha, hr]
    · intro he
      have ht : (feed E C s e).trace =
          s.trace ++ (if s.haveResultInWire && !e.more && s.fetchSize == 0
                      then [Call.removeActiveStreamingResult] else []) := by
        cases e <;>
          simp only [feed, addResultSet, Event.isCallable, Event.more, wireBookkeeping_eq]
            at he hn ⊢
        all_goals try contradiction
        simp [hn, he]
      refine ⟨?_, ht⟩
      rw [ht]
      cases hd : (s.haveResultInWire && !e.more && s.fetchSize == 0) <;>
        simp [List.countP_append, List.countP_cons, hr]

/-- Witness of C13 (amended): the three Single outcomes hold one entry with the expected
update count and make no append call; a Multiple, a Batch and an existing outcome get
one; a callable RowSet makes none. -/
theorem single_short_circuit_witness :
    (addStats wireEnv specCmd (fresh idle 0 false) 1 10 false).cmdInformation.map
        (fun c => (c.variant, c.st.entries)) = some (Variant.Single, [⟨1, 10⟩]) ∧
    (addStatsError wireEnv specCmd (fresh idle 0 false) false).cmdInformation.map
        (fun c => (c.variant, c.st.entries)) = some (Variant.Single, [⟨EXECUTE_FAILED, 0⟩]) ∧
    (addResultSet wireEnv specCmd (fresh idle 0 false) ⟨7, false⟩ false).cmdInformation.map
        (fun c => (c.variant, c.st.entries)) = some (Variant.Single, [⟨-1, 0⟩]) ∧
    (feed wireEnv specCmd (fresh idle 0 false) (Event.stats 1 10 false)).trace = [] ∧
    (feed wireEnv specCmd (fresh idle 0 false) (Event.stats 1 10 true)).trace
      = [Call.addSuccessStat 1 10] ∧
    (feed wireEnv specCmd (fresh idle 0 true) (Event.statsError false)).trace
      = [Call.addErrorStat] ∧
    (feed wireEnv specCmd scenarioB (Event.resultSet ⟨8, false⟩ false)).trace
      = [Call.addResultSetStat] ∧
    (feed wireEnv specCmd scenarioB (Event.resultSet ⟨3, true⟩ false)).trace = [] :=
  ⟨congrArg (Option.map fun c => (c.variant, c.st.entries))
      (((single_short_circuit wireEnv specCmd (fresh idle 0 false)).1 rfl rfl rfl).1 1 10),
   congrArg (Option.map fun c => (c.variant, c.st.entries))
      (((single_short_circuit wireEnv specCmd (fresh idle 0 false)).1 rfl rfl rfl).2.1),
   congrArg (Option.map fun c => (c.variant, c.st.entries))
      (((single_short_circuit wireEnv specCmd (fresh idle 0 false)).1 rfl rfl rfl).2.2
        ⟨7, false⟩ rfl),
   (((single_short_circuit wireEnv specCmd (fresh idle 0 false)).2
      (Event.stats 1 10 false) rfl).1 rfl).2,
   (((single_short_circuit wireEnv specCmd (fresh idle 0 false)).2
      (Event.stats 1 10 true) rfl).1 rfl).2,
   (((single_short_circuit wireEnv specCmd (fresh idle 0 true)).2
      (Event.statsError false) rfl).1 rfl).2,
   (((single_short_circuit wireEnv specCmd scenarioB).2
      (Event.resultSet ⟨8, false⟩ false) rfl).1 rfl).2,
   (((single_short_circuit wireEnv specCmd scenarioB).2
      (Event.resultSet ⟨3, true⟩ false) rfl).2 rfl).2⟩

/-- C16: while streaming (`fetchSize != 0`) `abort` clears `fetchSize` and calls `abort`
exactly once, on the current RowSet if present, else on the front of the queue if any;
with `fetchSize == 0` it does nothing.  It logs no other call (no `close`, no
`fetchRemaining`, no `Protocol` call), leaves `haveResultInWire`, the current RowSet,
the queue and the outcome unchanged, and a second `abort` is a no-op. -/
theorem abort_spec (E : Env σ) (s : Results σ κ) :
    (s.fetchSize ≠ 0 →
      (abort E s).1.fetchSize = 0 ∧
      (abort E s).1.trace = s.trace ++ (s.streamingTarget.toList.map Call.rsAbort)) ∧
    (s.fetchSize = 0 → abort E s = (s, Completion.returned ())) ∧
    ((abort E s).1.haveResultInWire = s.haveResultInWire ∧
      (abort E s).1.resultSet = s.resultSet ∧
      (abort E s).1.executionResults = s.executionResults ∧
      (abort E s).1.cmdInformation = s.cmdInformation) ∧
    abort E (abort E s).1 = ((abort E s).1, Completion.returned ()) := by
  have h0 : (abort E s).1.fetchSize = 0 := by
    simp only [abort]
    repeat' split
    all_goals simp_all [Results.callAbort]
  refine ⟨?_, ?_, ?_, ?_⟩
  · intro h
    refine ⟨h0, ?_⟩
    simp only [abort, Results.streamingTarget]
    cases hr : s.resultSet with
    | some rs => simp [h, Results.callAbort]; split <;> simp
    | none =>
      cases hq : s.executionResults with
      | nil => simp [h]
      | cons rs rest => simp [h, Results.callAbort]; split <;> simp
  · intro h
    simp [abort, h]
  · simp only [abort]
    repeat' split
    all_goals simp_all [Results.callAbort]
  · generalize (abort E s).1 = t at h0 ⊢
    simp [abort, h0]

/-- Witness of C16: abort on the current RowSet, on the front of the queue, and on an
instance that does not stream. -/
theorem abort_spec_witness :
    ((abort wireEnv streaming).1.fetchSize = 0 ∧
      (abort wireEnv streaming).1.trace = [Call.rsAbort ⟨7, false⟩]) ∧
    ((abort wireEnv queuedStreaming).1.fetchSize = 0 ∧
      (abort wireEnv queuedStreaming).1.trace
        = queuedStreaming.trace ++ [Call.rsAbort ⟨7, false⟩]) ∧
    abort wireEnv scenarioB = (scenarioB, Completion.returned ()) :=
  ⟨(abort_spec wireEnv streaming).1 (by decide),
   (abort_spec wireEnv queuedStreaming).1 (by decide),
   (abort_spec wireEnv scenarioB).2.1 rfl⟩

/-- C15, as stated, fails: with `skip` false a `moveToNextResult` that raises ends
`loadFully`, so the log holds one `moveToNextResult` and no `getResult`. -/
theorem loadFully_calls_counterexample :
    (loadFully faultyEnv specCmd 5 (streamingOn ⟨[[]], [], false⟩) false).2 = Completion.raised ∧
    (loadFully faultyEnv specCmd 5 (streamingOn ⟨[[]], [], false⟩) false).1.trace
      = [Call.rsFetchRemaining ⟨7, false⟩, Call.hasMoreResults, Call.moveToNextResult] := by
  decide

/-- C15, amended: `loadFully` logs first `loadFullyCalls`: with `fetchSize != 0` one call
(`close` if `skip`, `fetchRemaining` otherwise) on the current RowSet if present, else on
the front of the queue if any; with `fetchSize == 0` nothing.  The calls of the wire loop
that follow are no RowSet calls; there is none when `haveResultInWire` is false; with
`skip` set there is no `getResult`; with `skip` false there is one `getResult` per
`moveToNextResult`, except that a call which raises ends the loop: the counts are equal
unless `loadFully` raises, and differ by at most one then. -/
theorem loadFully_calls (E : Env σ) (C : CmdOps κ) (fuel : Nat) (s : Results σ κ)
    (skip : Bool) :
    (loadFully E C fuel s skip).1.trace
      = s.trace ++ s.loadFullyCalls skip ++ loadFullyLoopCalls E C fuel s skip ∧
    (∀ c ∈ loadFullyLoopCalls E C fuel s skip, c.isRowSet = false) ∧
    (s.haveResultInWire = false → loadFullyLoopCalls E C fuel s skip = []) ∧
    (skip = true → (loadFullyLoopCalls E C fuel s skip).count Call.getResult = 0) ∧
    (skip = false →
      (loadFullyLoopCalls E C fuel s skip).count Call.getResult
        ≤ (loadFullyLoopCalls E C fuel s skip).count Call.moveToNextResult ∧
      (loadFullyLoopCalls E C fuel s skip).count Call.moveToNextResult
        ≤ (loadFullyLoopCalls E C fuel s skip).count Call.getResult + 1 ∧
      ((loadFully E C fuel s skip).2 ≠ Completion.raised →
        (loadFullyLoopCalls E C fuel s skip).count Call.getResult
          = (loadFullyLoopCalls E C fuel s skip).count Call.moveToNextResult)) := by
  obtain ⟨t, h, w, h0, c1, c2⟩ := loadFully_ext E C fuel s skip
  have hl : loadFullyLoopCalls E C fuel s skip = t := by
    unfold loadFullyLoopCalls
    rw [callsSince_eq s _ (s.loadFullyCalls skip ++ t) (by rw [h, List.append_assoc])]
    exact List.drop_left _ _
  rw [hl]
  exact ⟨h, fun c hc => (isWire_facts c (w c hc)).1, h0, c1, c2⟩

/-- Witness of C15 (amended): the streaming instance drained with `skip` (one `close` on
the current RowSet, no `getResult`) and without (one `fetchRemaining`, one `getResult`
per `moveToNextResult`); the queue front is the target when nothing is current; nothing
is called when nothing streams and nothing is on the wire. -/
theorem loadFully_calls_witness :
    streaming.loadFullyCalls true = [Call.rsClose ⟨7, false⟩] ∧
    streaming.loadFullyCalls false = [Call.rsFetchRemaining ⟨7, false⟩] ∧
    queuedStreaming.loadFullyCalls true = [Call.rsClose ⟨7, false⟩] ∧
    scenarioB.loadFullyCalls true = [] ∧
    loadFullyLoopCalls wireEnv specCmd 5 scenarioB true = [] ∧
    (loadFullyLoopCalls wireEnv specCmd 5 streaming true).count Call.getResult = 0 ∧
    (loadFullyLoopCalls wireEnv specCmd 5 streaming false).count Call.getResult
      = (loadFullyLoopCalls wireEnv specCmd 5 streaming false).count Call.moveToNextResult ∧
    loadFullyLoopCalls wireEnv specCmd 5 streaming false
      = [Call.hasMoreResults, Call.moveToNextResult, Call.getResult, Call.addResultSetStat,
         Call.hasMoreResults, Call.moveToNextResult, Call.getResult,
         Call.removeActiveStreamingResult, Call.addSuccessStat 1 10, Call.hasMoreResults] :=
  ⟨rfl, rfl, rfl, rfl,
   (loadFully_calls wireEnv specCmd 5 scenarioB true).2.2.1 rfl,
   (loadFully_calls wireEnv specCmd 5 streaming true).2.2.2.1 rfl,
   ((loadFully_calls wireEnv specCmd 5 streaming false).2.2.2.2 rfl).2.2 (by decide),
   rfl⟩

/-- C19, as stated, fails in its second half: in `raisingNoOutcome` no outcome exists and
`haveResultInWire` is false, yet `getMoreResults` does not reach the unchecked use of
the outcome: closing the streaming current RowSet raises first. -/
theorem absent_outcome_counterexample :
    raisingNoOutcome.cmdInformation.isNone = true ∧
    raisingNoOutcome.haveResultInWire = false ∧
    (getMoreResults wireEnv specCmd raisingNoOutcome CLOSE_CURRENT_RESULT).2
      = Completion.raised := by
  decide

/-- C19, amended: when an outcome exists, `getMoreResults` never reaches the unchecked
use of an absent outcome, whatever events the connection feeds.  When no outcome exists
and `haveResultInWire` is false, that use is reached unless the RowSet call of the
streaming step raises first; in particular it is reached when `fetchSize == 0` or there
is no current RowSet. -/
theorem absent_outcome (E : Env σ) (C : CmdOps κ) (s : Results σ κ) (current : Int) :
    (s.cmdInformation.isSome = true →
      (getMoreResults E C s current).2 ≠ Completion.nullCmdInformation) ∧
    (s.cmdInformation = none → s.haveResultInWire = false →
      ((getMoreResultsCurrent E (s.log Call.lock) current).2 = false →
        (getMoreResults E C s current).2 = Completion.nullCmdInformation) ∧
      ((getMoreResultsCurrent E (s.log Call.lock) current).2 = true →
        (getMoreResults E C s current).2 = Completion.raised) ∧
      (s.fetchSize = 0 ∨ s.resultSet = none →
        (getMoreResults E C s current).2 = Completion.nullCmdInformation)) := by
  obtain ⟨f1, -, f3, -, -, -⟩ := getMoreResultsCurrent_frame E (s.log Call.lock) current
  refine ⟨?_, ?_⟩
  · intro h
    have h1 : (getMoreResultsCurrent E (s.log Call.lock) current).1.cmdInformation.isSome
        = true := by rw [f1]; exact h
    have h2 := getMoreResultsWire_isSome E C _ h1
    simp only [getMoreResults]
    split
    · simp
    · split
      · simp
      · obtain ⟨rel, -, -, h3⟩ := getMoreResultsTail_ext E C _ current h2
        rcases h3 with h3 | ⟨b, h3⟩ <;> rw [h3] <;> simp
  · intro hc hw
    have hw1 : (getMoreResultsCurrent E (s.log Call.lock) current).1.haveResultInWire
        = false := by rw [f3]; exact hw
    have hc1 : (getMoreResultsCurrent E (s.log Call.lock) current).1.cmdInformation
        = none := by rw [f1]; exact hc
    have hwire := getMoreResultsWire_idle E C _ hw1
    have key : (getMoreResultsCurrent E (s.log Call.lock) current).2 = false →
        (getMoreResults E C s current).2 = Completion.nullCmdInformation := by
      intro ha
      simp [getMoreResults, ha, hwire, getMoreResultsTail, hc1]
    refine ⟨key, ?_, ?_⟩
    · intro ha
      simp [getMoreResults, ha]
    · intro h
      apply key
      rcases h with h | h
      · simp [getMoreResultsCurrent, h]
      · rw [getMoreResultsCurrent_none E _ current (by simpa using h)]

/-- Witness of C19 (amended): with the outcome of scenario B the call returns; on a
fresh instance (no outcome, nothing on the wire, `fetchSize == 0`) the unchecked use is
reached. -/
theorem absent_outcome_witness :
    (getMoreResults wireEnv specCmd scenarioB 1).2 ≠ Completion.nullCmdInformation ∧
    (getMoreResults wireEnv specCmd (fresh idle 0 false : Results Wire OutcomeState) 1).2
      = Completion.nullCmdInformation ∧
    (getMoreResults wireEnv specCmd raisingNoOutcome 1).2 = Completion.raised :=
  ⟨(absent_outcome wireEnv specCmd scenarioB 1).1 rfl,
   ((absent_outcome wireEnv specCmd (fresh idle 0 false) 1).2 rfl rfl).2.2 (Or.inl rfl),
   ((absent_outcome wireEnv specCmd raisingNoOutcome 1).2 rfl rfl).2.1 rfl⟩

/-- C18, as stated, fails for `loadFully`: it makes its `Protocol` calls without taking
the lock (its caller must hold it). -/
theorem lock_scope_counterexample :
    Call.moveToNextResult ∈ (loadFully wireEnv specCmd 5 streaming true).1.trace ∧
    Call.lock ∉ (loadFully wireEnv specCmd 5 streaming true).1.trace := by
  decide

/-- C18, amended: `getMoreResults` first takes the lock; every call it then makes, on
`Protocol`, on a RowSet or on the outcome, comes after that and, on every exit that
returns or raises, before the release of the lock, which is the last call; only when the
absent outcome is dereferenced there is no release.  `loadFully` neither takes nor
releases the lock. -/
theorem lock_scope (E : Env σ) (C : CmdOps κ) (s : Results σ κ) (current : Int)
    (fuel : Nat) (skip : Bool) :
    (∃ mid, (getMoreResults E C s current).1.trace
        = s.trace ++ Call.lock :: mid ++
            (if (getMoreResults E C s current).2 = Completion.nullCmdInformation then []
             else [Call.unlock]) ∧
      ∀ c ∈ mid, c.isLock = false) ∧
    (∃ t, (loadFully E C fuel s skip).1.trace = s.trace ++ t ∧ ∀ c ∈ t, c.isLock = false) := by
  refine ⟨?_, ?_⟩
  · obtain ⟨w, tl, h, pw, -, alt⟩ := getMoreResults_ext E C s current
    obtain ⟨r1, r2⟩ := rowSetCalls_facts s current
    have hw : ∀ c ∈ w, c.isLock = false := fun c hc => (isWire_facts c (pw c hc)).2
    rcases alt with ⟨hr, rfl⟩ | ⟨hr, rfl, -⟩ | ⟨hr, rel, rfl, hrel⟩
    · refine ⟨s.streamingCalls current ++ w, by rw [h, hr]; simp, ?_⟩
      intro c hc
      rcases List.mem_append.mp hc with hc | hc
      · exact (r1 c hc).2
      · exact hw c hc
    · refine ⟨s.streamingCalls current ++ w, by rw [h, hr]; simp, ?_⟩
      intro c hc
      rcases List.mem_append.mp hc with hc | hc
      · exact (r1 c hc).2
      · exact hw c hc
    · have hne : (getMoreResults E C s current).2 ≠ Completion.nullCmdInformation := by
        rcases hr with hr | ⟨b, hr⟩ <;> rw [hr] <;> simp
      refine ⟨s.streamingCalls current ++ w ++ s.closeCalls current ++ rel,
        by rw [h, if_neg hne]; simp, ?_⟩
      intro c hc
      simp only [List.mem_append] at hc
      rcases hc with ((hc | hc) | hc) | hc
      · exact (r1 c hc).2
      · exact hw c hc
      · exact (r2 c hc).2
      · rcases hrel with rfl | rfl
        · simp at hc
        · simp at hc; subst hc; rfl
  · obtain ⟨t, h, pw, -⟩ := loadFully_ext E C fuel s skip
    refine ⟨s.loadFullyCalls skip ++ t, by rw [h, List.append_assoc], ?_⟩
    intro c hc
    rcases List.mem_append.mp hc with hc | hc
    · simp only [Results.loadFullyCalls] at hc
      split at hc
      · cases ht : s.streamingTarget <;> cases skip <;> simp [ht] at hc <;> subst hc <;> rfl
      · simp at hc
    · exact (isWire_facts c (pw c hc)).2


/-- Witness of C18 (amended): an advance of the streaming instance is bracketed by the
lock and its release. -/
theorem lock_scope_witness :
    ∃ mid, (getMoreResults wireEnv specCmd streaming 1).1.trace
        = Call.lock :: mid ++ [Call.unlock] ∧ ∀ c ∈ mid, c.isLock = false :=
  (lock_scope wireEnv specCmd streaming 1 5 true).1

/-- C20, as stated, fails: in `raisingCurrent` (`fetchSize != 0`, RowSet 7 current) the
`close` of the streaming step raises, so `getMoreResults` with `CLOSE_CURRENT_RESULT`
calls `close` on RowSet 7 once, not twice. -/
theorem close_count_counterexample :
    raisingCurrent.fetchSize ≠ 0 ∧ raisingCurrent.resultSet = some ⟨7, false⟩ ∧
    getMoreResultsRowSetCalls wireEnv specCmd raisingCurrent CLOSE_CURRENT_RESULT
      = [Call.rsClose ⟨7, false⟩] := by
  decide

/-- C20, amended: the RowSet calls of one `getMoreResults`.  Without current RowSet at
entry there is none.  With a current RowSet `rs` and a close behaviour other than
`CLOSE_CURRENT_RESULT`: no `close`, and `fetchRemaining` on `rs` once when
`fetchSize != 0`, not at all when `fetchSize == 0`.  With `CLOSE_CURRENT_RESULT`: on a
call that returns, `close` on `rs` exactly twice when `fetchSize != 0` and exactly once
when `fetchSize == 0`; on a call that raises or finds no outcome, only `close` calls on
`rs` and at most that many. -/
theorem close_count (E : Env σ) (C : CmdOps κ) (s : Results σ κ) (current : Int) :
    (s.resultSet = none → getMoreResultsRowSetCalls E C s current = []) ∧
    (∀ rs, s.resultSet = some rs → current ≠ CLOSE_CURRENT_RESULT →
      getMoreResultsRowSetCalls E C s current
        = if s.fetchSize = 0 then [] else [Call.rsFetchRemaining rs]) ∧
    (∀ rs, s.resultSet = some rs → current = CLOSE_CURRENT_RESULT →
      (∀ b, (getMoreResults E C s current).2 = Completion.returned b →
        getMoreResultsRowSetCalls E C s current
          = if s.fetchSize = 0 then [Call.rsClose rs]
            else [Call.rsClose rs, Call.rsClose rs]) ∧
      (∀ c ∈ getMoreResultsRowSetCalls E C s current, c = Call.rsClose rs) ∧
      (getMoreResultsRowSetCalls E C s current).length ≤ (if s.fetchSize = 0 then 1 else 2)) := by
  obtain ⟨h1, h2⟩ := getMoreResults_rowSetCalls E C s current
  refine ⟨?_, ?_, ?_⟩
  · intro hr
    have a : s.streamingCalls current = [] := by
      simp [Results.streamingCalls, hr]
    have b : s.closeCalls current = [] := by
      simp [Results.closeCalls, hr]
    rcases h1 with h | h <;> rw [h] <;> simp [a, b]
  · intro rs hr hc
    have a : s.streamingCalls current
        = if s.fetchSize = 0 then [] else [Call.rsFetchRemaining rs] := by
      by_cases hf : s.fetchSize = 0 <;> simp [Results.streamingCalls, hr, hc, hf]
    have b : s.closeCalls current = [] := by
      simp [Results.closeCalls, hc]
    rcases h1 with h | h <;> rw [h] <;> simp [a, b]
  · intro rs hr hc
    have a : s.streamingCalls current = if s.fetchSize = 0 then [] else [Call.rsClose rs] := by
      by_cases hf : s.fetchSize = 0 <;> simp [Results.streamingCalls, hr, hc, hf]
    have b : s.closeCalls current = [Call.rsClose rs] := by
      simp [Results.closeCalls, hr, hc]
    refine ⟨?_, ?_, ?_⟩
    · intro v hv
      rw [h2 v hv, a, b]
      by_cases hf : s.fetchSize = 0 <;> simp [hf]
    · intro c hcm
      rcases h1 with h | h <;> rw [h, a] at hcm <;>
        by_cases hf : s.fetchSize = 0 <;> simp [hf, b] at hcm
      all_goals exact hcm
    · rcases h1 with h | h <;> rw [h, a] <;>
        by_cases hf : s.fetchSize = 0 <;> simp [hf, b]

/-- Witness of C20 (amended): the streaming instance with a Single outcome is advanced
with `CLOSE_CURRENT_RESULT` (two `close` calls) and with another behaviour (one
`fetchRemaining`); scenario B after `commandEnd` does not stream (one `close`); a fresh
instance has no current RowSet (no call). -/
theorem close_count_witness :
    getMoreResultsRowSetCalls wireEnv specCmd streamingSingle CLOSE_CURRENT_RESULT
      = [Call.rsClose ⟨7, false⟩, Call.rsClose ⟨7, false⟩] ∧
    getMoreResultsRowSetCalls wireEnv specCmd streamingSingle 2
      = [Call.rsFetchRemaining ⟨7, false⟩] ∧
    getMoreResultsRowSetCalls wireEnv specCmd (commandEnd specCmd scenarioB).1
        CLOSE_CURRENT_RESULT = [Call.rsClose ⟨7, false⟩] ∧
    getMoreResultsRowSetCalls wireEnv specCmd (fresh idle 10 false) CLOSE_CURRENT_RESULT = [] :=
  ⟨((close_count wireEnv specCmd streamingSingle CLOSE_CURRENT_RESULT).2.2 ⟨7, false⟩ rfl
      rfl).1 false rfl,
   (close_count wireEnv specCmd streamingSingle 2).2.1 ⟨7, false⟩ rfl (by decide),
   ((close_count wireEnv specCmd (commandEnd specCmd scenarioB).1 CLOSE_CURRENT_RESULT).2.2
      ⟨7, false⟩ rfl rfl).1 false rfl,
   (close_count wireEnv specCmd (fresh idle 10 false) CLOSE_CURRENT_RESULT).1 rfl⟩

end Claims

end MariaDb
